import Mathlib

/-!
# nbwatcher: a shallow embedding of `main.go`

The development embeds the functions of `main.go` (`build`, `run`, `listSubDir`,
`addWatchPath`, `newWatcher`, `kill`, `loop`, `main`) as Lean functions over an
explicit state and an explicit record of what the operating system answers
(environment variables, file contents, directory trees, success or failure of
system calls), and proves properties of them.

Go strings are byte sequences; they are embedded as lists of characters.

## How the program is embedded

* A function that can fail returns `Except Err` or the error next to the new
  state; a panic of `main` is the error it panics with.
* The `select` of `loop` is embedded as one iteration per serviced case
  (`loopIter`); a run of `loop` is a sequence of inputs (`Input`): exits of
  processes, the interrupt signal, and the cases the `select` chooses one after
  the other, each with what the operating system answers in that iteration
  (`World`). A receive from a closed channel is always ready, so the case
  `<-procChan` can be chosen whenever the channel is closed.
* A process is identified by a number given when it is started. In `State`,
  `recvProcChan` and `loopIter` the goroutine that `run` starts is inside
  `proc.Wait()`, on the process of its own call of `run`, before the loop kills
  that process: its channel is closed exactly when that process has exited.
* The goroutine reads the package variable `proc` only when it first runs.
  `GState`, `gRecv` and `gLoopIter` embed it with its first scheduling as an
  input of its own; they agree with `recvProcChan` and `loopIter` when the
  goroutine has run before the kill (`gLoopIter_scheduled`), and differ when
  `kill()` has set `proc` to nil first (`rebuild_before_wait_two_alive`).
* The calls made to the operating system are recorded in order (`trace`), the
  lines logged by the loop in `logs`.
* The library functions used by `main.go` (`filepath.Clean`, `filepath.Join`,
  `filepath.Walk`, `bufio.Reader.ReadBytes`, `bytes.Split`) are embedded after
  the Go standard library, `filepath.Walk` over a directory tree given as data.
-/

namespace NBWatcher

/-- Go `string` / `[]byte`. -/
abbrev Str := List Char

/-! ## Library: `path/filepath` (Unix) -/

/-- Removes the last path element already written to the output buffer of `Clean`:
`out.w--; for out.w > dotdot && !IsPathSeparator(out.index(out.w)) { out.w-- }`.
The buffer is kept reversed (last written byte first); `n` is `out.w - dotdot`. -/
def backtrack : Nat → Str → Str
  | 0, out => out
  | _ + 1, [] => []
  | n + 1, c :: out =>
    if n > 0 ∧ c ≠ '/' then backtrack n out else out

/-- Main loop of Go's `filepath.Clean`. `path` is the unread input, `out` the
reversed output buffer, `dotdot` the index in the buffer where `..` must stop. -/
def cleanLoop (rooted : Bool) : Nat → Str → Str → Nat → Str
  | 0, _, out, _ => out
  | _ + 1, [], out, _ => out
  | fuel + 1, c :: rest, out, dotdot =>
    if c = '/' then
      -- empty path element
      cleanLoop rooted fuel rest out dotdot
    else if c = '.' ∧ (rest = [] ∨ rest.head? = some '/') then
      -- . element
      cleanLoop rooted fuel rest out dotdot
    else if c = '.' ∧ rest.head? = some '.' ∧
        (rest.tail = [] ∨ rest.tail.head? = some '/') then
      -- .. element: remove to last separator
      if out.length > dotdot then
        cleanLoop rooted fuel rest.tail
          (backtrack (out.length - dotdot) out) dotdot
      else if !rooted then
        let out1 := if out.length > 0 then '/' :: out else out
        let out2 := '.' :: '.' :: out1
        cleanLoop rooted fuel rest.tail out2 out2.length
      else
        cleanLoop rooted fuel rest.tail out dotdot
    else
      -- real path element: add slash if needed, then copy the element
      let out1 :=
        if (rooted ∧ out.length ≠ 1) ∨ (¬ rooted ∧ out.length ≠ 0) then '/' :: out
        else out
      let elem := (c :: rest).takeWhile (fun x => x ≠ '/')
      cleanLoop rooted fuel ((c :: rest).dropWhile (fun x => x ≠ '/'))
        (elem.reverse ++ out1) dotdot

/-- Go's `filepath.Clean` on Unix (no volume name, separator `/`). -/
def Clean (path : Str) : Str :=
  if path = [] then ['.']
  else
    let rooted := path.head? = some '/'
    let out :=
      if rooted then cleanLoop true (path.length + 1) path.tail ['/'] 1
      else cleanLoop false (path.length + 1) path [] 0
    if out = [] then ['.'] else out.reverse

/-- Go's `strings.Join(elems, "/")`. -/
def joinSep : List Str → Str
  | [] => []
  | [e] => e
  | e :: es => e ++ '/' :: joinSep es

/-- Go's `filepath.Join` on Unix: the elements from the first non-empty one on are
joined with `/` and the result is cleaned; all elements empty gives `""`. -/
def Join : List Str → Str
  | [] => []
  | e :: es => if e ≠ [] then Clean (joinSep (e :: es)) else Join es

/-! ## Library: `bufio.Reader.ReadBytes` and `bytes.Split` -/

/-- Go's `reader.ReadBytes(delim)` on a reader whose unread content is `buf`: the
bytes up to and including the first `delim`, the unread rest, and whether an
error is returned (`io.EOF`, when the content ends before a `delim`; the bytes
read so far are returned with it). -/
def readBytes (delim : Char) : Str → Str × Str × Bool
  | [] => ([], [], true)
  | c :: cs =>
    if c = delim then ([c], cs, false)
    else
      let r := readBytes delim cs
      (c :: r.1, r.2.1, r.2.2)

/-- Go's `bytes.Split(s, sep)` for a one-byte separator: the subslices between
the occurrences of `sep`; never empty. -/
def bytesSplit (sep : Char) : Str → List Str
  | [] => [[]]
  | c :: cs =>
    if c = sep then [] :: bytesSplit sep cs
    else
      match bytesSplit sep cs with
      | [] => [[c]]
      | w :: ws => (c :: w) :: ws

/-! ## `build` -/

/-- Errors returned by the functions of `main.go`. -/
inductive Err
  | noGoPath
  | vgoBuild
  | openGoSum
  | lstat
  | readDir
  | watcherAdd
  | newWatcher
  | getwd
  | watcherClose
  | start
  | kill (pid : Nat)
  deriving DecidableEq, Repr

/-- What `build` reads from its surroundings. -/
structure BuildEnv where
  /-- The answer of `os.LookupEnv("GOPATH")`; `none` when the variable is not set. -/
  goPath : Option Str
  /-- Whether `vgo build -o main entry` fails, per entry. -/
  vgoFails : Str → Bool
  /-- The content of `go.sum` after the build; `none` when `os.Open` fails. -/
  goSum : Option Str

/-- The `for line, err := reader.ReadBytes('\n'); err == nil; ...` loop of `build`:
`buf` is the unread content of `go.sum`, `l` the slice built so far. -/
def buildLoop (goPath : Str) : Nat → Str → List Str → List Str
  | 0, _, l => l
  | fuel + 1, buf, l =>
    let r := readBytes '\n' buf
    if r.2.2 then l
    else
      let path := (bytesSplit ' ' r.1).headD []
      if path ≠ [] then
        buildLoop goPath fuel r.2.1 (l ++ [Join [goPath, "src".toList, path]])
      else
        buildLoop goPath fuel r.2.1 l

/-- The function `build(entry)`. -/
def build (env : BuildEnv) (entry : Str) : Except Err (List Str) :=
  match env.goPath with
  | none => .error .noGoPath
  | some goPath =>
    if env.vgoFails entry then .error .vgoBuild
    else
      match env.goSum with
      | none => .error .openGoSum
      | some content => .ok (buildLoop goPath (content.length + 1) content [])

/-! ## Library: `filepath.Walk` and the watched directory trees -/

/-- What `os.Lstat` and `readDirNames` find at a path. The entries of a directory
are listed in the order in which `readDirNames` returns them (sorted by name).
Symbolic links are not followed by `filepath.Walk`; they are files here. -/
inductive Node
  /-- The call `os.Lstat` fails (the path does not exist, or was removed during the scan). -/
  | gone
  /-- Not a directory. -/
  | file
  /-- A directory whose listing (`readDirNames`) fails. -/
  | locked
  /-- A directory and its entries. -/
  | dir (entries : List (Str × Node))

/-- A watcher handle of `fsnotify`: its identity and the paths handed to
`watcher.Add`, in call order. -/
structure Watcher where
  id : Nat
  paths : List Str
  deriving DecidableEq, Repr

/-- What `newWatcher` reads from its surroundings. -/
structure WatchEnv where
  /-- Whether `fsnotify.NewWatcher()` fails. -/
  newWatcherFails : Bool
  /-- The answer of `os.Getwd()`; `none` when it fails. -/
  getwd : Option Str
  /-- The tree found at a path. -/
  lstat : Str → Node
  /-- Whether `watcher.Add(dir)` fails, per directory. -/
  addFails : Str → Bool

mutual
/-- Go's `filepath.Walk` below a path whose `Lstat` answer is known, with the
callback of `listSubDir`: any error is returned, a directory is appended to `dirs`. -/
def walk (path : Str) : Node → List Str → Except Err (List Str)
  | .gone, _ => .error .lstat
  | .file, dirs => .ok dirs
  | .locked, _ => .error .readDir
  | .dir entries, dirs => walkEntries path entries (dirs ++ [path])
/-- The `for _, name := range names` loop of Go's `walk`. -/
def walkEntries (path : Str) : List (Str × Node) → List Str → Except Err (List Str)
  | [], dirs => .ok dirs
  | (name, n) :: entries, dirs =>
    match walk (Join [path, name]) n dirs with
    | .error e => .error e
    | .ok dirs1 => walkEntries path entries dirs1
end

/-! ## `listSubDir`, `addWatchPath`, `newWatcher` -/

/-- The function `listSubDir(root)`. -/
def listSubDir (env : WatchEnv) (root : Str) : Except Err (List Str) :=
  walk root (env.lstat root) []

/-- The loop `for _, dir := range dirs { err := watcher.Add(dir) ... }`; the
watcher is returned as it is when the loop ends or fails. -/
def addDirs (env : WatchEnv) : Watcher → List Str → Watcher × Option Err
  | w, [] => (w, none)
  | w, dir :: dirs =>
    if env.addFails dir then (w, some .watcherAdd)
    else addDirs env { w with paths := w.paths ++ [dir] } dirs

/-- The recursive branch of `addWatchPath`: `for _, root := range pathList`. -/
def addRoots (env : WatchEnv) : Watcher → List Str → Watcher × Option Err
  | w, [] => (w, none)
  | w, root :: roots =>
    match listSubDir env root with
    | .error e => (w, some e)
    | .ok dirs =>
      match addDirs env w dirs with
      | (w1, some e) => (w1, some e)
      | (w1, none) => addRoots env w1 roots

/-- The function `addWatchPath(watcher, pathList, recursive)`. -/
def addWatchPath (env : WatchEnv) (w : Watcher) (pathList : List Str)
    (recursive : Bool) : Watcher × Option Err :=
  if recursive then addRoots env w pathList else addDirs env w pathList

/-- The function `newWatcher(deps, recursive)`; `id` is the identity of the
handle that `fsnotify.NewWatcher()` returns. -/
def newWatcher (env : WatchEnv) (id : Nat) (deps : List Str) (recursive : Bool) :
    Except Err Watcher :=
  if env.newWatcherFails then .error .newWatcher
  else
    match env.getwd with
    | none => .error .getwd
    | some pwd =>
      match addWatchPath env ⟨id, []⟩ [pwd] recursive with
      | (_, some e) => .error e
      | (w1, none) =>
        match addWatchPath env w1 deps true with
        | (_, some e) => .error e
        | (w2, none) => .ok w2

/-! ## Processes, `run`, `kill` -/

/-- Calls made to the operating system by the loop, in the order made. -/
inductive Effect
  /-- The call `proc.Kill()` on the process with this pid, and whether it succeeded. -/
  | kill (pid : Nat) (ok : Bool)
  /-- A receive `<-procChan` inside the rebuild branch that completed. -/
  | recv (chan : Nat)
  /-- The call `build(entry)`, and whether it succeeded. -/
  | build (ok : Bool)
  /-- The call `watcher.Close()` on the watcher with this id, and whether it succeeded. -/
  | close (watcher : Nat) (ok : Bool)
  /-- The call `newWatcher(deps, recursive)` and the watcher it returned, if any. -/
  | newWatcher (res : Option Watcher)
  /-- The call `cmd.Start()` in `run`, and the pid of the started process, if any. -/
  | start (res : Option Nat)
  deriving DecidableEq, Repr

/-- Lines written with `log`. -/
inductive LogLine
  | running (pid : Nat)
  | stopping (pid : Nat)
  | detected
  | error (e : Err)
  | closed
  | gotInterrupt
  deriving DecidableEq, Repr

/-- What one iteration of the loop reads from its surroundings. -/
structure World where
  /-- Whether `proc.Kill()` fails. -/
  killFails : Bool
  buildEnv : BuildEnv
  /-- Whether `watcher.Close()` fails. -/
  closeFails : Bool
  watchEnv : WatchEnv
  /-- Whether `cmd.Start()` fails. -/
  startFails : Bool

/-- The variables of the program and the processes and watchers around it.

A process is identified by a number given at its start (`nextPid`), a watcher
by a number given at its creation (`nextWatcher`). The channel made by the call
of `run` that started process `p` is identified by `p`. Its goroutine is taken
to be inside `proc.Wait()` on that process before the process is killed: it
closes the channel when the process has exited, so the channel is closed
exactly when `p` is not in `alive`. The goroutine before its first run is in
`GState`. -/
structure State where
  /-- The package variable `proc`. -/
  proc : Option Nat
  /-- The variable `procChan` of `loop`. -/
  procChan : Nat
  /-- The variable `watcher` of `loop`; `none` is the nil pointer. -/
  watcher : Option Watcher
  /-- The processes started and not yet exited. -/
  alive : List Nat
  /-- The processes on which `Kill` succeeded. -/
  signalled : List Nat
  /-- The watchers closed. -/
  closed : List Nat
  /-- Whether `handleInterrupt` has closed `stopChan`. -/
  stopClosed : Bool
  nextPid : Nat
  nextWatcher : Nat
  trace : List Effect
  logs : List LogLine
  deriving DecidableEq, Repr

/-- The function `run()`: the new state and the channel returned, or the error. -/
def run (w : World) (s : State) : State × Except Err Nat :=
  if w.startFails then
    ({ s with trace := s.trace ++ [.start none] }, .error .start)
  else
    let pid := s.nextPid
    ({ s with
        proc := some pid
        alive := pid :: s.alive
        nextPid := pid + 1
        trace := s.trace ++ [.start (some pid)]
        logs := s.logs ++ [.running pid] }, .ok pid)

/-- The function `kill()`: the new state and the error returned, if any. A
successful `Kill` marks the process; it exits afterwards. -/
def kill (w : World) (s : State) : State × Option Err :=
  match s.proc with
  | none => (s, none)
  | some pid =>
    if w.killFails then
      ({ s with
          trace := s.trace ++ [.kill pid false]
          logs := s.logs ++ [.stopping pid] }, some (.kill pid))
    else
      ({ s with
          proc := none
          signalled := pid :: s.signalled
          trace := s.trace ++ [.kill pid true]
          logs := s.logs ++ [.stopping pid] }, none)

/-- Whether the channel `procChan` is closed. -/
def chanClosed (s : State) : Bool := !(s.alive.contains s.procChan)

/-- The receive `<-procChan` of the rebuild branch, with the goroutine of the
channel inside `proc.Wait()` on the process of the channel (`gRecv` is the
receive without this). Nothing is ever sent on the channel, so the receive
returns when the channel is closed: at once when the process has exited, after
the exit of a process that has been killed, and not at all (`none`) while the
process runs on. -/
def recvProcChan (s : State) : Option State :=
  if s.alive.contains s.procChan then
    if s.signalled.contains s.procChan then
      some { s with
        alive := s.alive.filter (fun p => p ≠ s.procChan)
        trace := s.trace ++ [.recv s.procChan] }
    else none
  else some { s with trace := s.trace ++ [.recv s.procChan] }

/-- The call `watcher.Close()` on the current watcher: the new state and whether an error
is returned. -/
def closeWatcher (w : World) (cur : Watcher) (s : State) : State × Bool :=
  if w.closeFails then
    ({ s with trace := s.trace ++ [.close cur.id false] }, true)
  else
    ({ s with
        closed := cur.id :: s.closed
        trace := s.trace ++ [.close cur.id true] }, false)

/-! ## `loop` -/

/-- Operation bits of `fsnotify.Op`. -/
def Create : Nat := 1
/-- Operation bit `fsnotify.Write`. -/
def Write : Nat := 2
/-- Operation bit `fsnotify.Remove`. -/
def Remove : Nat := 4
/-- Operation bit `fsnotify.Rename`. -/
def Rename : Nat := 8
/-- Operation bit `fsnotify.Chmod`. -/
def Chmod : Nat := 16

/-- The cases of the `select` statement of `loop`. -/
inductive Source
  /-- The case `err := <-watcher.Errors`. -/
  | errors
  /-- The case `event := <-watcher.Events`, with `event.Op` (a `uint32`). -/
  | events (op : Nat)
  /-- The case `<-procChan`. -/
  | procChan
  /-- The case `<-stopChan`. -/
  | stopChan
  deriving DecidableEq, Repr

/-- How one iteration of `loop` ends. -/
inductive Status
  /-- The `for` loop goes on with its next iteration. -/
  | next
  /-- The function `loop` has returned. -/
  | returned
  /-- The program has panicked. -/
  | panicked
  /-- The iteration waits in `<-procChan` for a process that runs on. -/
  | blocked
  deriving DecidableEq, Repr

/-- Whether the `select` of `loop` can choose a case in a state. -/
def enabled (s : State) : Source → Bool
  | .errors => true
  | .events _ => true
  | .procChan => chanClosed s
  | .stopChan => s.stopClosed

/-- The rest of the rebuild branch after `kill()` has returned no error. -/
def rebuild (entry : Str) (recursive : Bool) (w : World) (cur : Watcher)
    (s : State) : State × Status :=
  match recvProcChan s with
  | none => (s, .blocked)
  | some s1 =>
    match build w.buildEnv entry with
    | .error e =>
      ({ s1 with trace := s1.trace ++ [.build false], logs := s1.logs ++ [.error e] },
        .next)
    | .ok deps =>
      let s2 := { s1 with trace := s1.trace ++ [.build true] }
      match closeWatcher w cur s2 with
      | (s3, true) => ({ s3 with logs := s3.logs ++ [.error .watcherClose] }, .returned)
      | (s3, false) =>
        match newWatcher w.watchEnv s3.nextWatcher deps recursive with
        | .error e =>
          ({ s3 with
              watcher := none
              nextWatcher := s3.nextWatcher + 1
              trace := s3.trace ++ [.newWatcher none]
              logs := s3.logs ++ [.error e] }, .returned)
        | .ok nw =>
          let s4 := { s3 with
            watcher := some nw
            nextWatcher := s3.nextWatcher + 1
            trace := s3.trace ++ [.newWatcher (some nw)] }
          match run w s4 with
          | (s5, .error e) => ({ s5 with logs := s5.logs ++ [.error e] }, .next)
          | (s5, .ok newProcChan) => ({ s5 with procChan := newProcChan }, .next)

/-- One iteration of the `for` loop of `loop(entry, recursive, watcher, procChan,
stopChan)` in which the `select` chooses the case `src`. -/
def loopIter (entry : Str) (recursive : Bool) (w : World) (s : State) :
    Source → State × Status
  | .errors => (s, .panicked)
  | .events op =>
    match s.watcher with
    | none => (s, .panicked)
    | some cur =>
      if op &&& (Create ||| Remove ||| Write) > 0 then
        let s1 := { s with logs := s.logs ++ [.detected] }
        match kill w s1 with
        | (s2, some e) => ({ s2 with logs := s2.logs ++ [.error e] }, .returned)
        | (s2, none) => rebuild entry recursive w cur s2
      else (s, .next)
  | .procChan =>
    match s.watcher with
    | none => (s, .panicked)
    | some _ =>
      match run w s with
      | (s1, .error e) => ({ s1 with logs := s1.logs ++ [.error e] }, .next)
      | (s1, .ok newProcChan) => ({ s1 with procChan := newProcChan }, .next)
  | .stopChan =>
    match s.watcher with
    | none => (s, .panicked)
    | some cur =>
      let r := kill w s
      let s1 := match r.2 with
        | some e => { r.1 with logs := r.1.logs ++ [.error e] }
        | none => r.1
      let s2 := (closeWatcher w cur s1).1
      ({ s2 with logs := s2.logs ++ [.closed] }, .returned)

/-- What happens around and in the loop, one step at a time. -/
inductive Input
  /-- A process exits (by itself, or after it has been killed). -/
  | exit (pid : Nat)
  /-- The interrupt signal arrives: `handleInterrupt` closes `stopChan`. -/
  | interrupt
  /-- The `select` of `loop` chooses a case, and the iteration runs in a world. -/
  | service (src : Source) (w : World)

/-- The function `handleInterrupt(stopChan)` from the arrival of the signal on:
it logs, stops listening and closes `stopChan`. It runs once. -/
def handleInterrupt (s : State) : State :=
  if s.stopClosed then s
  else { s with stopClosed := true, logs := s.logs ++ [.gotInterrupt] }

/-- One step of the program after `main` has called `loop`. A case that the
`select` cannot choose is not serviced. -/
def step (entry : Str) (recursive : Bool) (s : State) : Input → State × Status
  | .exit pid => ({ s with alive := s.alive.filter (fun p => p ≠ pid) }, .next)
  | .interrupt => (handleInterrupt s, .next)
  | .service src w =>
    if enabled s src then loopIter entry recursive w s src else (s, .next)

/-- The function `loop(entry, recursive, watcher, procChan, stopChan)`, run over
a sequence of inputs: what the surroundings do and what the `select` chooses,
in order. The variables `watcher` and `procChan` and the channel `stopChan` are
in the state. The run ends when the function returns, panics or blocks. -/
def loop (entry : Str) (recursive : Bool) : State → List Input → State × Status
  | s, [] => (s, .next)
  | s, i :: is =>
    match step entry recursive s i with
    | (s1, .next) => loop entry recursive s1 is
    | r => r

/-- The function `main()` up to the call of `loop`: the state in which `loop` is
entered, or the error with which `main` panics. -/
def main (w : World) (recursive : Bool) (entry : Str) : Except Err State :=
  match build w.buildEnv entry with
  | .error e => .error e
  | .ok deps =>
    match newWatcher w.watchEnv 0 deps recursive with
    | .error e => .error e
    | .ok watcher =>
      let s0 : State :=
        { proc := none, procChan := 0, watcher := some watcher, alive := [],
          signalled := [], closed := [], stopClosed := false, nextPid := 0,
          nextWatcher := 1, trace := [.build true, .newWatcher (some watcher)],
          logs := [] }
      match run w s0 with
      | (_, .error e) => .error e
      | (s1, .ok procChan) => .ok { s1 with procChan := procChan }

/-! ## Directories of a tree -/

mutual
/-- The directories of the tree found at a path: the path itself when it is a
directory, and the directories of its entries, in the order of the walk. -/
def dirsBelow (path : Str) : Node → List Str
  | .gone => []
  | .file => []
  | .locked => [path]
  | .dir entries => path :: dirsBelowEntries path entries
/-- The directories of the entries of a directory. -/
def dirsBelowEntries (path : Str) : List (Str × Node) → List Str
  | [] => []
  | (name, n) :: entries =>
    dirsBelow (Join [path, name]) n ++ dirsBelowEntries path entries
end

/-- The relation `IsDirAt path n d`: in the tree `n` found at `path`, `d` is the
path of a directory, either `path` itself or a descendant directory of it. -/
inductive IsDirAt : Str → Node → Str → Prop
  | locked (path : Str) : IsDirAt path .locked path
  | self (path : Str) (entries : List (Str × Node)) : IsDirAt path (.dir entries) path
  | inside (path : Str) (entries : List (Str × Node)) (name : Str) (n : Node)
      (d : Str) : (name, n) ∈ entries → IsDirAt (Join [path, name]) n d →
      IsDirAt path (.dir entries) d

/-! ## The invariant of the loop -/

/-- What holds of the state each time the `for` loop of `loop` starts an
iteration (`main_inv`, `loop_inv`, `reachable_inv`). -/
structure Inv (s : State) : Prop where
  /-- The channel in `procChan` is the one of the tracked process. -/
  tracked : ∀ p, s.proc = some p → s.procChan = p
  /-- No process but the one of `procChan` is running. -/
  alive : s.alive = [] ∨ s.alive = [s.procChan]
  /-- With no tracked process, no process is running. -/
  untracked : s.proc = none → s.alive = []
  /-- The pid counter is ahead of the pids given. -/
  fresh : s.procChan < s.nextPid
  /-- The current watcher exists and is open. -/
  watcher : ∃ cur, s.watcher = some cur ∧ cur.id < s.nextWatcher ∧ cur.id ∉ s.closed
  /-- The watcher counter is ahead of the closed watchers. -/
  closed : ∀ id ∈ s.closed, id < s.nextWatcher

/-- The state between `kill()` and `<-procChan` in the rebuild branch: nothing
is tracked, and the process of `procChan`, if it still runs, has been killed. -/
structure Killed (cur : Watcher) (s : State) : Prop where
  proc : s.proc = none
  alive : s.alive = [] ∨ (s.alive = [s.procChan] ∧ s.procChan ∈ s.signalled)
  fresh : s.procChan < s.nextPid
  watcher : s.watcher = some cur ∧ cur.id < s.nextWatcher ∧ cur.id ∉ s.closed
  closed : ∀ id ∈ s.closed, id < s.nextWatcher

/-- The effects of `kill()` on the trace when it returns no error. -/
def killTrace : Option Nat → List Effect
  | none => []
  | some p => [.kill p true]

/-- The effect of `kill()` on the trace, whatever `Kill` answers. -/
def killAttempt (w : World) : Option Nat → List Effect
  | none => []
  | some p => [.kill p (!w.killFails)]

/-! ## The goroutine of `run`, by its first scheduling

The definitions above take the goroutine that `run` starts to be inside
`proc.Wait()`, on the process of its own call of `run`, by the time the loop
kills that process. The definitions of this section embed the goroutine as
`main.go:76-88` has it: it evaluates `proc.Wait()` on the package variable
`proc` when it first runs, which may be after `kill()` has set `proc` to nil.
-/

/-- The goroutine started by the call of `run` that made the channel in
`procChan`. The goroutines of earlier channels have closed them: `procChan` is
replaced only after a receive from it has returned. -/
inductive Goroutine
  /-- Started by the `go` statement; it has not run yet. -/
  | created
  /-- Inside `proc.Wait()`, on the process that `proc` held when it first ran. -/
  | waiting (pid : Nat)
  /-- The deferred function has run: the channel is closed. -/
  | closed
  deriving DecidableEq, Repr

/-- The state of the program with the goroutine of `procChan`. -/
structure GState where
  st : State
  gor : Goroutine
  deriving DecidableEq, Repr

/-- The first run of the goroutine. It calls `proc.Wait()` on the package
variable as it is now; with `proc == nil` the call panics, the deferred function
recovers and closes the channel, and no process has been waited for. -/
def schedule (g : GState) : GState :=
  match g.gor with
  | .created =>
    match g.st.proc with
    | none => { g with gor := .closed }
    | some pid => { g with gor := .waiting pid }
  | .waiting _ => g
  | .closed => g

/-- Whether the channel in `procChan` is closed: the goroutine has closed it, or
the process it waits for has exited. -/
def gChanClosed (g : GState) : Bool :=
  match g.gor with
  | .created => false
  | .waiting pid => !(g.st.alive.contains pid)
  | .closed => true

/-- The function `run()`, with the goroutine it starts. -/
def gRun (w : World) (g : GState) : GState × Except Err Nat :=
  match run w g.st with
  | (s1, .error e) => ({ g with st := s1 }, .error e)
  | (s1, .ok newProcChan) => ({ st := s1, gor := .created }, .ok newProcChan)

/-- The receive `<-procChan` of the rebuild branch. While the loop waits in it,
the goroutine runs if it has not yet. The receive returns when the channel is
closed: at once when the goroutine has closed it, after the exit of the process
the goroutine waits for when that process has been killed, and not at all
(`none`) while that process runs on. -/
def gRecv (g : GState) : Option GState :=
  let g1 := schedule g
  match g1.gor with
  | .created => none
  | .closed =>
    some { g1 with st := { g1.st with trace := g1.st.trace ++ [.recv g1.st.procChan] } }
  | .waiting pid =>
    if g1.st.alive.contains pid then
      if g1.st.signalled.contains pid then
        some
          { st := { g1.st with
              alive := g1.st.alive.filter (fun p => p ≠ pid)
              trace := g1.st.trace ++ [.recv g1.st.procChan] }
            gor := .closed }
      else none
    else
      some
        { st := { g1.st with trace := g1.st.trace ++ [.recv g1.st.procChan] }
          gor := .closed }

/-- The rest of the rebuild branch after `kill()` has returned no error, with the
goroutine. -/
def gRebuild (entry : Str) (recursive : Bool) (w : World) (cur : Watcher)
    (g : GState) : GState × Status :=
  match gRecv g with
  | none => (g, .blocked)
  | some g1 =>
    match build w.buildEnv entry with
    | .error e =>
      ({ g1 with st := { g1.st with
          trace := g1.st.trace ++ [.build false]
          logs := g1.st.logs ++ [.error e] } }, .next)
    | .ok deps =>
      let s2 := { g1.st with trace := g1.st.trace ++ [.build true] }
      match closeWatcher w cur s2 with
      | (s3, true) =>
        ({ g1 with st := { s3 with logs := s3.logs ++ [.error .watcherClose] } },
          .returned)
      | (s3, false) =>
        match newWatcher w.watchEnv s3.nextWatcher deps recursive with
        | .error e =>
          ({ g1 with st := { s3 with
              watcher := none
              nextWatcher := s3.nextWatcher + 1
              trace := s3.trace ++ [.newWatcher none]
              logs := s3.logs ++ [.error e] } }, .returned)
        | .ok nw =>
          let s4 := { s3 with
            watcher := some nw
            nextWatcher := s3.nextWatcher + 1
            trace := s3.trace ++ [.newWatcher (some nw)] }
          match gRun w { g1 with st := s4 } with
          | (g5, .error e) =>
            ({ g5 with st := { g5.st with logs := g5.st.logs ++ [.error e] } }, .next)
          | (g5, .ok newProcChan) =>
            ({ g5 with st := { g5.st with procChan := newProcChan } }, .next)

/-- One iteration of the `for` loop of `loop` in which the `select` chooses the
case `src`, with the goroutine. -/
def gLoopIter (entry : Str) (recursive : Bool) (w : World) (g : GState) :
    Source → GState × Status
  | .errors => (g, .panicked)
  | .events op =>
    match g.st.watcher with
    | none => (g, .panicked)
    | some cur =>
      if op &&& (Create ||| Remove ||| Write) > 0 then
        let s1 := { g.st with logs := g.st.logs ++ [.detected] }
        match kill w s1 with
        | (s2, some e) =>
          ({ g with st := { s2 with logs := s2.logs ++ [.error e] } }, .returned)
        | (s2, none) => gRebuild entry recursive w cur { g with st := s2 }
      else (g, .next)
  | .procChan =>
    match g.st.watcher with
    | none => (g, .panicked)
    | some _ =>
      match gRun w g with
      | (g1, .error e) =>
        ({ g1 with st := { g1.st with logs := g1.st.logs ++ [.error e] } }, .next)
      | (g1, .ok newProcChan) =>
        ({ g1 with st := { g1.st with procChan := newProcChan } }, .next)
  | .stopChan =>
    match g.st.watcher with
    | none => (g, .panicked)
    | some cur =>
      let r := kill w g.st
      let s1 := match r.2 with
        | some e => { r.1 with logs := r.1.logs ++ [.error e] }
        | none => r.1
      let s2 := (closeWatcher w cur s1).1
      ({ g with st := { s2 with logs := s2.logs ++ [.closed] } }, .returned)

/-- Whether the `select` of `loop` can choose a case, with the goroutine. -/
def gEnabled (g : GState) : Source → Bool
  | .errors => true
  | .events _ => true
  | .procChan => gChanClosed g
  | .stopChan => g.st.stopClosed

/-- What happens around and in the loop, with the goroutine. -/
inductive GInput
  /-- The goroutine of `procChan` runs for the first time. -/
  | schedule
  /-- A process exits (by itself, or after it has been killed). -/
  | exit (pid : Nat)
  /-- The interrupt signal arrives: `handleInterrupt` closes `stopChan`. -/
  | interrupt
  /-- The `select` of `loop` chooses a case, and the iteration runs in a world. -/
  | service (src : Source) (w : World)

/-- One step of the program after `main` has called `loop`, with the goroutine. -/
def gStep (entry : Str) (recursive : Bool) (g : GState) : GInput → GState × Status
  | .schedule => (schedule g, .next)
  | .exit pid =>
    ({ g with st := { g.st with alive := g.st.alive.filter (fun p => p ≠ pid) } },
      .next)
  | .interrupt => ({ g with st := handleInterrupt g.st }, .next)
  | .service src w =>
    if gEnabled g src then gLoopIter entry recursive w g src else (g, .next)

/-- The function `loop`, run over a sequence of inputs, with the goroutine. -/
def gLoop (entry : Str) (recursive : Bool) : GState → List GInput → GState × Status
  | g, [] => (g, .next)
  | g, i :: is =>
    match gStep entry recursive g i with
    | (g1, .next) => gLoop entry recursive g1 is
    | r => r

/-- The function `main()` up to the call of `loop`, with the goroutine that its
call of `run` has started. -/
def gMain (w : World) (recursive : Bool) (entry : Str) : Except Err GState :=
  match main w recursive entry with
  | .error e => .error e
  | .ok s => .ok { st := s, gor := .created }

/-- The goroutine has run before the loop kills its process: it waits for the
process of `procChan`, or it has closed the channel of a process that has
exited. -/
def Scheduled (g : GState) : Prop :=
  g.gor = .waiting g.st.procChan ∨
    (g.gor = .closed ∧ g.st.alive.contains g.st.procChan = false)

/-- The state in which `main` enters `loop` in the example world, with the
goroutine that its call of `run` has started and that has not run yet. -/
def gStateExample : GState :=
  { st :=
      { proc := some 0, procChan := 0,
        watcher := some ⟨0, ["/w".toList, "/gp/src/modA".toList,
          "/gp/src/modA/sub".toList]⟩,
        alive := [0], signalled := [], closed := [], stopClosed := false,
        nextPid := 1, nextWatcher := 1,
        trace := [.build true,
          .newWatcher (some ⟨0, ["/w".toList, "/gp/src/modA".toList,
            "/gp/src/modA/sub".toList]⟩), .start (some 0)],
        logs := [.running 0] }
    gor := .created }

/-! ## Manifest lines -/

/-- A line `<module-path> <additional fields...>` of the dependency manifest:
its first token and what follows the first space. -/
structure ManifestLine where
  token : Str
  fields : Str

/-- The bytes of a manifest line in `go.sum`, with its line terminator. -/
def lineBytes (m : ManifestLine) : Str := m.token ++ ' ' :: (m.fields ++ ['\n'])

/-- The bytes of a manifest. -/
def manifestBytes : List ManifestLine → Str
  | [] => []
  | m :: ms => lineBytes m ++ manifestBytes ms

/-- A manifest line is well formed when its token is not empty and has neither
a space nor a line terminator in it, and its fields have no line terminator. -/
def WellFormed (m : ManifestLine) : Prop :=
  m.token ≠ [] ∧ ' ' ∉ m.token ∧ '\n' ∉ m.token ∧ '\n' ∉ m.fields

/-! ## Concrete inputs -/

/-- The manifest of three lines `modA v1.0 abc123`, `modB v2.0 def456` and a blank
line, as the bytes of `go.sum`. -/
def manifestExample : Str := "modA v1.0 abc123\nmodB v2.0 def456\n\n".toList

/-- A build environment with `GOPATH=/gp`, a build that succeeds when `ok`, and
a given `go.sum`. -/
def envExample (ok : Bool) (goSum : Str) : BuildEnv :=
  { goPath := some "/gp".toList, vgoFails := fun _ => !ok, goSum := some goSum }

/-- A project directory `/w` with a file `main.go` and a subdirectory `pkg`, and
a dependency directory `/gp/src/modA` with a subdirectory `sub`. -/
def lstatExample (path : Str) : Node :=
  if path = "/w".toList then
    .dir [("main.go".toList, .file), ("pkg".toList, .dir [("x.go".toList, .file)])]
  else if path = "/gp/src/modA".toList then .dir [("sub".toList, .dir [])]
  else .gone

/-- The surroundings of `newWatcher` in the example: working directory `/w`. -/
def watchEnvExample : WatchEnv :=
  { newWatcherFails := false, getwd := some "/w".toList, lstat := lstatExample,
    addFails := fun _ => false }

/-- A world in which `Kill` and `Close` succeed, one dependency `modA` is
listed, the build succeeds when `buildOk` and the start when `startOk`. -/
def worldExample (buildOk startOk : Bool) : World :=
  { killFails := false, buildEnv := envExample buildOk "modA v1.0 abc123\n".toList,
    closeFails := false, watchEnv := watchEnvExample, startFails := !startOk }

/-- The entry `main.go`. -/
def entryExample : Str := "main.go".toList

/-- The watcher that `main` creates in the example world (non-recursive). -/
def watcherExample : Watcher :=
  ⟨0, ["/w".toList, "/gp/src/modA".toList, "/gp/src/modA/sub".toList]⟩

/-- The state in which `main` enters `loop` in the example world. -/
def stateExample : State :=
  { proc := some 0, procChan := 0, watcher := some watcherExample, alive := [0],
    signalled := [], closed := [], stopClosed := false, nextPid := 1,
    nextWatcher := 1,
    trace := [.build true, .newWatcher (some watcherExample), .start (some 0)],
    logs := [.running 0] }

deriving instance DecidableEq for Except

/-! ## `filepath.Clean` and `filepath.Join` on examples -/

/-- The embedding of `filepath.Clean` and `filepath.Join` on cases of the tables
in Go's `path_test.go`. -/
theorem Clean_table :
    Clean "".toList = ".".toList ∧
    Clean "abc/def".toList = "abc/def".toList ∧
    Clean "/".toList = "/".toList ∧
    Clean "abc/".toList = "abc".toList ∧
    Clean "abc//def//ghi".toList = "abc/def/ghi".toList ∧
    Clean "///abc".toList = "/abc".toList ∧
    Clean "abc/./def".toList = "abc/def".toList ∧
    Clean "/./abc/def".toList = "/abc/def".toList ∧
    Clean "abc/def/ghi/../jkl".toList = "abc/def/jkl".toList ∧
    Clean "abc/def/../..".toList = ".".toList ∧
    Clean "/abc/def/../../..".toList = "/".toList ∧
    Clean "abc/def/../../../ghi/jkl/../../../mno".toList = "../../mno".toList ∧
    Clean "/../abc".toList = "/abc".toList ∧
    Clean "abc/./../def".toList = "def".toList ∧
    Clean "abc/../../././../def".toList = "../../def".toList ∧
    Join ["a".toList, "b".toList] = "a/b".toList ∧
    Join ["a".toList, "".toList] = "a".toList ∧
    Join ["".toList, "b".toList] = "b".toList ∧
    Join ["/".toList, "a".toList] = "/a".toList ∧
    Join ["a/".toList, "b".toList] = "a/b".toList ∧
    Join ["".toList, "".toList] = "".toList := by
  decide

/-! ## `filepath.Clean`: the fuel suffices -/

/-- The fuel `len(path) + 1` that `Clean` gives its loop never runs out: every
step reads at least one byte of the path, and more fuel gives the same result. -/
theorem cleanLoop_fuel (rooted : Bool) (fuel : Nat) :
    ∀ (rest out : Str) (dotdot : Nat), rest.length < fuel →
      cleanLoop rooted fuel rest out dotdot =
        cleanLoop rooted (rest.length + 1) rest out dotdot := by
  induction fuel using Nat.strong_induction_on with
  | _ fuel ih =>
    intro rest out dotdot hlt
    obtain ⟨k, rfl⟩ : ∃ k, fuel = k + 1 := ⟨fuel - 1, by omega⟩
    cases rest with
    | nil => simp [cleanLoop]
    | cons c cs =>
      have norm : ∀ (r o : Str) (d : Nat), r.length < cs.length + 1 →
          cleanLoop rooted k r o d = cleanLoop rooted (cs.length + 1) r o d := by
        intro r o d hr
        simp only [List.length_cons] at hlt
        rw [ih k (by omega) r o d (by omega),
          ih (cs.length + 1) (by omega) r o d hr]
      have htail : cs.tail.length < cs.length + 1 := by
        simp only [List.length_tail]
        omega
      have hdrop : ((c :: cs).dropWhile (fun x => decide (x ≠ '/'))).length <
          cs.length + 1 ∨ c = '/' := by
        by_cases hc : c = '/'
        · exact Or.inr hc
        · left
          simp only [List.dropWhile_cons, ne_eq, hc, not_false_eq_true, decide_True,
            if_true]
          have := (List.dropWhile_sublist (l := cs)
            (fun x => decide (x ≠ '/'))).length_le
          simp only [ne_eq] at this
          omega
      simp only [cleanLoop, List.length_cons]
      by_cases h1 : c = '/'
      · simp only [h1, if_true]
        exact norm _ _ _ (by omega)
      · simp only [h1, if_false]
        rcases hdrop with hdrop | hdrop
        · split_ifs <;> exact norm _ _ _ (by omega)
        · exact absurd hdrop h1

/-! ## `build`: the manifest loop -/

theorem readBytes_length (delim : Char) (buf : Str) :
    (readBytes delim buf).2.2 = false →
      (readBytes delim buf).2.1.length < buf.length := by
  induction buf with
  | nil => simp [readBytes]
  | cons c cs ih =>
    unfold readBytes
    by_cases h : c = delim
    · simp [h]
    · simp only [h, if_false]
      intro hk
      have := ih hk
      simp only [List.length_cons]
      omega

/-- The fuel `len(content) + 1` that `build` gives the manifest loop never runs
out: more fuel gives the same result. -/
theorem buildLoop_fuel (goPath : Str) (fuel : Nat) :
    ∀ (buf : Str) (l : List Str), buf.length < fuel →
      buildLoop goPath fuel buf l = buildLoop goPath (buf.length + 1) buf l := by
  induction fuel using Nat.strong_induction_on with
  | _ fuel ih =>
    intro buf l hlt
    obtain ⟨k, rfl⟩ : ∃ k, fuel = k + 1 := ⟨fuel - 1, by omega⟩
    simp only [buildLoop]
    by_cases herr : (readBytes '\n' buf).2.2 = true
    · simp [herr]
    · have herr2 : (readBytes '\n' buf).2.2 = false := by simpa using herr
      have hlen := readBytes_length '\n' buf herr2
      simp only [herr2, Bool.false_eq_true, if_false]
      have e1 : ∀ l2, buildLoop goPath k (readBytes '\n' buf).2.1 l2 =
          buildLoop goPath ((readBytes '\n' buf).2.1.length + 1)
            (readBytes '\n' buf).2.1 l2 :=
        fun l2 => ih k (by omega) _ l2 (by omega)
      have e2 : ∀ l2, buildLoop goPath buf.length (readBytes '\n' buf).2.1 l2 =
          buildLoop goPath ((readBytes '\n' buf).2.1.length + 1)
            (readBytes '\n' buf).2.1 l2 :=
        fun l2 => ih buf.length (by omega) _ l2 hlen
      simp only [e1, e2]

theorem readBytes_line (a b : Str) (h : '\n' ∉ a) :
    readBytes '\n' (a ++ '\n' :: b) = (a ++ ['\n'], b, false) := by
  induction a with
  | nil => simp [readBytes]
  | cons c cs ih =>
    have hc : c ≠ '\n' := fun e => h (by simp [e])
    have hcs : '\n' ∉ cs := fun e => h (by simp [e])
    simp [readBytes, hc, ih hcs]

theorem bytesSplit_token (t r : Str) (h : ' ' ∉ t) :
    (bytesSplit ' ' (t ++ ' ' :: r)).headD [] = t := by
  induction t with
  | nil => simp [bytesSplit]
  | cons c cs ih =>
    have hc : c ≠ ' ' := fun e => h (by simp [e])
    have hcs : ' ' ∉ cs := fun e => h (by simp [e])
    have := ih hcs
    simp only [List.cons_append, bytesSplit, hc, if_false]
    cases hb : bytesSplit ' ' (cs ++ ' ' :: r) with
    | nil => simp [hb] at this; simp [this]
    | cons x xs => simp [hb] at this; simp [this]

/-- On a manifest of well-formed lines the loop of `build` appends, in manifest
order, one directory per line: `GOPATH/src` joined with the first token. -/
theorem buildLoop_manifest (goPath : Str) (ms : List ManifestLine) :
    ∀ (fuel : Nat) (l : List Str), (manifestBytes ms).length < fuel →
      (∀ m ∈ ms, WellFormed m) →
      buildLoop goPath fuel (manifestBytes ms) l =
        l ++ ms.map (fun m => Join [goPath, "src".toList, m.token]) := by
  induction ms with
  | nil =>
    intro fuel l hf _
    obtain ⟨k, rfl⟩ : ∃ k, fuel = k + 1 := ⟨fuel - 1, by omega⟩
    simp [buildLoop, manifestBytes, readBytes]
  | cons m ms ih =>
    intro fuel l hf hwf
    obtain ⟨k, rfl⟩ : ∃ k, fuel = k + 1 := ⟨fuel - 1, by omega⟩
    obtain ⟨hne, hsp, hnl, hfl⟩ := hwf m (by simp)
    have hline : '\n' ∉ m.token ++ ' ' :: m.fields := by
      intro hm
      rcases List.mem_append.1 hm with h1 | h1
      · exact hnl h1
      · rcases List.mem_cons.1 h1 with h2 | h2
        · exact absurd h2 (by decide)
        · exact hfl h2
    have hbytes : manifestBytes (m :: ms) =
        (m.token ++ ' ' :: m.fields) ++ '\n' :: manifestBytes ms := by
      simp [manifestBytes, lineBytes]
    have hlen : (manifestBytes ms).length < k := by
      rw [hbytes] at hf
      simp only [List.length_append, List.length_cons] at hf
      omega
    have htok : (bytesSplit ' ' ((m.token ++ ' ' :: m.fields) ++ ['\n'])).headD [] =
        m.token := by
      have := bytesSplit_token m.token (m.fields ++ ['\n']) hsp
      simpa using this
    rw [hbytes]
    simp only [buildLoop, readBytes_line _ _ hline, htok]
    simp only [Bool.false_eq_true, if_false, ne_eq, hne, not_false_eq_true, if_true]
    rw [ih k _ hlen (fun x hx => hwf x (by simp [hx]))]
    simp

/-- On a manifest of well-formed lines a successful `build` returns, in manifest
order, exactly one directory per line: `GOPATH/src` joined with the first
token of the line. -/
theorem build_manifest (env : BuildEnv) (entry goPath : Str)
    (ms : List ManifestLine) (hg : env.goPath = some goPath)
    (hv : env.vgoFails entry = false) (hs : env.goSum = some (manifestBytes ms))
    (hwf : ∀ m ∈ ms, WellFormed m) :
    build env entry = .ok (ms.map (fun m => Join [goPath, "src".toList, m.token])) := by
  unfold build
  simp only [hg, hv, Bool.false_eq_true, if_false, hs]
  rw [buildLoop_manifest goPath ms _ [] (by omega) hwf]
  simp

/-- The two module lines of the example give the two directories. -/
theorem build_manifest_example :
    build (envExample true "modA v1.0 abc123\nmodB v2.0 def456\n".toList)
        entryExample =
      .ok ["/gp/src/modA".toList, "/gp/src/modB".toList] :=
  build_manifest (envExample true "modA v1.0 abc123\nmodB v2.0 def456\n".toList)
    entryExample "/gp".toList
    [⟨"modA".toList, "v1.0 abc123".toList⟩, ⟨"modB".toList, "v2.0 def456".toList⟩]
    rfl rfl rfl
    (by
      intro m hm
      simp only [List.mem_cons, List.mem_singleton, List.not_mem_nil, or_false] at hm
      rcases hm with rfl | rfl <;> (unfold WellFormed; decide))

/-- Claim C1 at the manifest of the specification: for the lines
`modA v1.0 abc123`, `modB v2.0 def456` and a blank line, `build` returns three
directories, not two; the third is made from the blank line, whose first token
is the line terminator that `ReadBytes` leaves on the line. -/
theorem build_blank_line_entry :
    build (envExample true manifestExample) entryExample =
      .ok ["/gp/src/modA".toList, "/gp/src/modB".toList, "/gp/src/\n".toList] := by
  decide

/-! ## `kill` -/

/-- Claim C4 as stated fails: with no tracked process (`proc == nil`), `kill`
returns no error and leaves the state as it is. -/
theorem kill_untracked_no_error :
    kill (worldExample true true) { stateExample with proc := none, alive := [] } =
      ({ stateExample with proc := none, alive := [] }, none) := by
  decide

/-- Claim C4, amended: `kill` returns no error and changes nothing when no
process is tracked; when one is tracked and the underlying `Kill` fails it
returns an error and the process stays tracked; when `Kill` succeeds it returns
no error and clears the tracked-process slot. -/
theorem kill_spec (w : World) (s : State) :
    (s.proc = none → kill w s = (s, none)) ∧
    (∀ pid, s.proc = some pid → w.killFails = true →
      (kill w s).2 = some (.kill pid) ∧ (kill w s).1.proc = some pid) ∧
    (∀ pid, s.proc = some pid → w.killFails = false →
      (kill w s).2 = none ∧ (kill w s).1.proc = none ∧
        (kill w s).1.signalled = pid :: s.signalled) := by
  refine ⟨?_, ?_, ?_⟩
  · intro h
    simp [kill, h]
  · intro pid h hk
    simp [kill, h, hk]
  · intro pid h hk
    simp [kill, h, hk]

/-- The three cases of `kill_spec` at concrete states. -/
theorem kill_spec_witness :
    kill (worldExample true true) { stateExample with proc := none } =
        ({ stateExample with proc := none }, none) ∧
    (kill { worldExample true true with killFails := true } stateExample).2 =
        some (.kill 0) ∧
    (kill (worldExample true true) stateExample).1.proc = none :=
  ⟨(kill_spec _ _).1 rfl,
   ((kill_spec { worldExample true true with killFails := true } stateExample).2.1
      0 rfl rfl).1,
   ((kill_spec (worldExample true true) stateExample).2.2 0 rfl rfl).2.1⟩

/-! ## The event filter of `loop` -/

theorem mask_bits (op : Nat) :
    (op &&& (Create ||| Remove ||| Write) > 0) ↔
      (op &&& Create ≠ 0 ∨ op &&& Remove ≠ 0 ∨ op &&& Write ≠ 0) := by
  have e : Create ||| Remove ||| Write = 7 := by decide
  have h7 : op &&& 7 = op % 8 := Nat.and_pow_two_sub_one_eq_mod op 3
  have k : ∀ m, m < 8 → op &&& m = (op % 8) &&& m := by
    intro m hm
    rw [← h7, Nat.and_assoc]
    congr 1
    interval_cases m <;> rfl
  rw [e, show Create = 1 from rfl, show Remove = 4 from rfl, show Write = 2 from rfl,
    k 1 (by norm_num), k 4 (by norm_num), k 2 (by norm_num), h7]
  have : op % 8 < 8 := Nat.mod_lt _ (by norm_num)
  generalize op % 8 = r at this
  interval_cases r <;> decide

/-! ## The watcher handle returned by `newWatcher` -/

theorem addDirs_id (env : WatchEnv) (dirs : List Str) :
    ∀ w : Watcher, (addDirs env w dirs).1.id = w.id := by
  induction dirs with
  | nil => intro w; rfl
  | cons d ds ih =>
    intro w
    unfold addDirs
    by_cases h : env.addFails d = true
    · simp [h]
    · simp only [h, Bool.false_eq_true, if_false]
      rw [ih]

theorem addRoots_id (env : WatchEnv) (roots : List Str) :
    ∀ w : Watcher, (addRoots env w roots).1.id = w.id := by
  induction roots with
  | nil => intro w; rfl
  | cons r rs ih =>
    intro w
    unfold addRoots
    cases hl : listSubDir env r with
    | error e => rfl
    | ok dirs =>
      simp only []
      have hid := addDirs_id env dirs w
      rcases hd : addDirs env w dirs with ⟨w1, _ | e⟩
      · rw [hd] at hid
        simp only []
        rw [ih w1]
        exact hid
      · rw [hd] at hid
        exact hid

theorem addWatchPath_id (env : WatchEnv) (w : Watcher) (l : List Str) (r : Bool) :
    (addWatchPath env w l r).1.id = w.id := by
  unfold addWatchPath
  cases r
  · simpa using addDirs_id env l w
  · simpa using addRoots_id env l w

theorem newWatcher_id (env : WatchEnv) (id : Nat) (deps : List Str) (r : Bool)
    (nw : Watcher) (h : newWatcher env id deps r = .ok nw) : nw.id = id := by
  unfold newWatcher at h
  by_cases hf : env.newWatcherFails = true
  · simp [hf] at h
  · simp only [hf, Bool.false_eq_true, if_false] at h
    cases hg : env.getwd with
    | none => simp [hg] at h
    | some pwd =>
      simp only [hg] at h
      have h1 := addWatchPath_id env ⟨id, []⟩ [pwd] r
      rcases ha : addWatchPath env ⟨id, []⟩ [pwd] r with ⟨w1, _ | e⟩
      · rw [ha] at h h1
        simp only [] at h
        have h2 := addWatchPath_id env w1 deps true
        rcases hb : addWatchPath env w1 deps true with ⟨w2, _ | e⟩
        · rw [hb] at h h2
          simp only [Except.ok.injEq] at h
          subst h
          simpa using h2.trans h1
        · rw [hb] at h
          simp at h
      · rw [ha] at h
        simp at h

/-! ## The invariant of the loop: proofs -/

theorem recv_of_killed (cur : Watcher) (s : State) (h : Killed cur s) :
    recvProcChan s =
      some { s with alive := [], trace := s.trace ++ [.recv s.procChan] } := by
  unfold recvProcChan
  rcases h.alive with ha | ⟨ha, hs⟩
  · simp [ha]
  · simp [ha, hs]

theorem kill_killed (w : World) (s s2 : State) (cur : Watcher) (hi : Inv s)
    (hw : s.watcher = some cur) (l : List LogLine)
    (hk : kill w { s with logs := l } = (s2, none)) :
    Killed cur s2 ∧ s2.trace = s.trace ++
      (match s.proc with | none => [] | some p => [.kill p true]) ∧
      s2.alive = s.alive ∧ s2.procChan = s.procChan ∧ s2.closed = s.closed ∧
      s2.nextPid = s.nextPid ∧ s2.nextWatcher = s.nextWatcher ∧
      s2.stopClosed = s.stopClosed := by
  obtain ⟨cur2, hc, hlt, hnc⟩ := hi.watcher
  rw [hw] at hc
  cases hc
  unfold kill at hk
  cases hp : s.proc with
  | none =>
    simp only [hp, Prod.mk.injEq, and_true] at hk
    subst hk
    refine ⟨⟨rfl, Or.inl (hi.untracked hp), hi.fresh, ⟨hw, hlt, hnc⟩, hi.closed⟩, ?_⟩
    simp [hp]
  | some p =>
    simp only [hp] at hk
    by_cases hf : w.killFails = true
    · simp [hf] at hk
    · simp only [hf, Bool.false_eq_true, if_false, Prod.mk.injEq, and_true] at hk
      subst hk
      have hpc := hi.tracked p hp
      refine ⟨⟨rfl, ?_, hi.fresh, ⟨hw, hlt, hnc⟩, hi.closed⟩, ?_⟩
      · rcases hi.alive with ha | ha
        · exact Or.inl ha
        · exact Or.inr ⟨ha, by simp [hpc]⟩
      · simp [hp]

theorem rebuild_build_fails (entry : Str) (recursive : Bool) (w : World)
    (cur : Watcher) (s : State) (e : Err) (h : Killed cur s)
    (hb : build w.buildEnv entry = .error e) :
    rebuild entry recursive w cur s =
      ({ s with
          alive := []
          trace := s.trace ++ [.recv s.procChan, .build false]
          logs := s.logs ++ [.error e] }, .next) := by
  unfold rebuild
  rw [recv_of_killed cur s h]
  simp [hb]

theorem rebuild_new_watcher (entry : Str) (recursive : Bool) (w : World)
    (cur nw : Watcher) (s : State) (deps : List Str) (h : Killed cur s)
    (hb : build w.buildEnv entry = .ok deps) (hc : w.closeFails = false)
    (hn : newWatcher w.watchEnv s.nextWatcher deps recursive = .ok nw) :
    rebuild entry recursive w cur s =
      if w.startFails then
        ({ s with
            alive := []
            watcher := some nw
            closed := cur.id :: s.closed
            nextWatcher := s.nextWatcher + 1
            trace := s.trace ++ [.recv s.procChan, .build true, .close cur.id true,
              .newWatcher (some nw), .start none]
            logs := s.logs ++ [.error .start] }, .next)
      else
        ({ s with
            proc := some s.nextPid
            procChan := s.nextPid
            alive := [s.nextPid]
            watcher := some nw
            closed := cur.id :: s.closed
            nextPid := s.nextPid + 1
            nextWatcher := s.nextWatcher + 1
            trace := s.trace ++ [.recv s.procChan, .build true, .close cur.id true,
              .newWatcher (some nw), .start (some s.nextPid)]
            logs := s.logs ++ [.running s.nextPid] }, .next) := by
  unfold rebuild
  rw [recv_of_killed cur s h]
  simp only [hb, closeWatcher, hc, Bool.false_eq_true, if_false, hn, run]
  by_cases hs : w.startFails = true
  · simp [hs]
  · simp [hs]

/-- The rebuild branch after a successful `kill()` never waits for a running
process, leaves at most one process running, and hands the invariant on when
the loop goes on. -/
theorem rebuild_inv (entry : Str) (recursive : Bool) (w : World)
    (cur : Watcher) (s : State) (h : Killed cur s) :
    (rebuild entry recursive w cur s).2 ≠ .blocked ∧
    (rebuild entry recursive w cur s).1.alive.length ≤ 1 ∧
    ((rebuild entry recursive w cur s).2 = .next →
      Inv (rebuild entry recursive w cur s).1) := by
  obtain ⟨hw, hlt, hnc⟩ := h.watcher
  cases hb : build w.buildEnv entry with
  | error e =>
    rw [rebuild_build_fails entry recursive w cur s e h hb]
    refine ⟨by simp, by simp, fun _ => ?_⟩
    exact ⟨by simp [h.proc], Or.inl rfl, fun _ => rfl, h.fresh,
      ⟨cur, hw, hlt, hnc⟩, h.closed⟩
  | ok deps =>
    by_cases hc : w.closeFails = true
    · unfold rebuild
      rw [recv_of_killed cur s h]
      simp [hb, closeWatcher, hc]
    · have hc2 : w.closeFails = false := by simpa using hc
      cases hn : newWatcher w.watchEnv s.nextWatcher deps recursive with
      | error e =>
        unfold rebuild
        rw [recv_of_killed cur s h]
        simp [hb, closeWatcher, hc2, hn]
      | ok nw =>
        have hid := newWatcher_id _ _ _ _ _ hn
        rw [rebuild_new_watcher entry recursive w cur nw s deps h hb hc2 hn]
        have hwat : ∃ c, some nw = some c ∧ c.id < s.nextWatcher + 1 ∧
            c.id ∉ cur.id :: s.closed := by
          refine ⟨nw, rfl, by omega, ?_⟩
          intro hm
          rcases List.mem_cons.1 hm with h1 | h1
          · omega
          · have := h.closed _ h1
            omega
        have hcl : ∀ id ∈ cur.id :: s.closed, id < s.nextWatcher + 1 := by
          intro id hm
          rcases List.mem_cons.1 hm with h1 | h1
          · omega
          · have := h.closed _ h1
            omega
        by_cases hs : w.startFails = true
        · simp only [hs, if_true]
          refine ⟨by simp, by simp, fun _ => ?_⟩
          exact ⟨by simp [h.proc], Or.inl rfl, fun _ => rfl, h.fresh, hwat, hcl⟩
        · simp only [hs, Bool.false_eq_true, if_false]
          refine ⟨by simp, by simp, fun _ => ?_⟩
          exact ⟨by simp, Or.inr rfl, by simp, by simp, hwat, hcl⟩

theorem inv_alive_length (s : State) (h : Inv s) : s.alive.length ≤ 1 := by
  rcases h.alive with ha | ha <;> simp [ha]

theorem inv_closed_chan (s : State) (h : Inv s) (hc : chanClosed s = true) :
    s.alive = [] := by
  rcases h.alive with ha | ha
  · exact ha
  · simp [chanClosed, ha] at hc

/-- The case `<-procChan` of the `select`, written out. -/
theorem loopIter_procChan (entry : Str) (recursive : Bool) (w : World) (s : State)
    (cur : Watcher) (hw : s.watcher = some cur) :
    loopIter entry recursive w s .procChan =
      if w.startFails then
        ({ s with
            trace := s.trace ++ [.start none]
            logs := s.logs ++ [.error .start] }, .next)
      else
        ({ s with
            proc := some s.nextPid
            procChan := s.nextPid
            alive := s.nextPid :: s.alive
            nextPid := s.nextPid + 1
            trace := s.trace ++ [.start (some s.nextPid)]
            logs := s.logs ++ [.running s.nextPid] }, .next) := by
  unfold loopIter
  simp only [hw, run]
  by_cases hs : w.startFails = true
  · simp [hs]
  · simp [hs]

/-- The case `<-watcher.Events` of the `select`, written out. -/
theorem loopIter_events (entry : Str) (recursive : Bool) (w : World) (s : State)
    (cur : Watcher) (op : Nat) (hw : s.watcher = some cur) :
    loopIter entry recursive w s (.events op) =
      if op &&& (Create ||| Remove ||| Write) > 0 then
        match kill w { s with logs := s.logs ++ [.detected] } with
        | (s2, some e) => ({ s2 with logs := s2.logs ++ [.error e] }, .returned)
        | (s2, none) => rebuild entry recursive w cur s2
      else (s, .next) := by
  unfold loopIter
  rw [hw]

/-- The case `<-stopChan` of the `select`, written out. -/
theorem loopIter_stopChan (entry : Str) (recursive : Bool) (w : World) (s : State)
    (cur : Watcher) (hw : s.watcher = some cur) :
    loopIter entry recursive w s .stopChan =
      ({ (closeWatcher w cur
            (match (kill w s).2 with
              | some e => { (kill w s).1 with logs := (kill w s).1.logs ++ [.error e] }
              | none => (kill w s).1)).1 with
          logs := (closeWatcher w cur
            (match (kill w s).2 with
              | some e => { (kill w s).1 with logs := (kill w s).1.logs ++ [.error e] }
              | none => (kill w s).1)).1.logs ++ [.closed] }, .returned) := by
  unfold loopIter
  rw [hw]

/-- Servicing the case `<-procChan` makes one start attempt. -/
theorem procChan_trace (entry : Str) (recursive : Bool) (w : World) (s : State)
    (cur : Watcher) (hw : s.watcher = some cur) :
    (loopIter entry recursive w s .procChan).1.trace =
      s.trace ++ [.start (if w.startFails then none else some s.nextPid)] := by
  rw [loopIter_procChan entry recursive w s cur hw]
  by_cases hs : w.startFails = true
  · simp [hs]
  · simp [hs]

/-- One iteration of the loop, whatever case the `select` chooses: it never
waits for a running process, leaves at most one process running, and hands the
invariant on when the loop goes on. -/
theorem loopIter_inv (entry : Str) (recursive : Bool) (w : World) (s : State)
    (src : Source) (h : Inv s) (he : enabled s src = true) :
    (loopIter entry recursive w s src).2 ≠ .blocked ∧
    (loopIter entry recursive w s src).1.alive.length ≤ 1 ∧
    ((loopIter entry recursive w s src).2 = .next →
      Inv (loopIter entry recursive w s src).1) := by
  obtain ⟨cur, hw, hlt, hnc⟩ := h.watcher
  have hlen := inv_alive_length s h
  cases src with
  | errors => simp [loopIter, hlen]
  | events op =>
    rw [loopIter_events entry recursive w s cur op hw]
    by_cases hop : op &&& (Create ||| Remove ||| Write) > 0
    · simp only [hop, if_true]
      rcases hk : kill w { s with logs := s.logs ++ [.detected] } with ⟨s2, _ | e⟩
      · exact rebuild_inv entry recursive w cur s2
          (kill_killed w s s2 cur h hw _ hk).1
      · have ha : s2.alive = s.alive := by
          unfold kill at hk
          cases hp : s.proc with
          | none => simp [hp] at hk
          | some p =>
            simp only [hp] at hk
            by_cases hf : w.killFails = true
            · simp only [hf, if_true, Prod.mk.injEq] at hk
              rw [← hk.1]
            · simp [hf] at hk
        simp [ha, hlen]
    · simp only [hop, if_false]
      exact ⟨by simp, hlen, fun _ => h⟩
  | procChan =>
    have ha := inv_closed_chan s h he
    rw [loopIter_procChan entry recursive w s cur hw]
    by_cases hs : w.startFails = true
    · simp only [hs, if_true]
      exact ⟨by simp, hlen, fun _ =>
        ⟨h.tracked, h.alive, h.untracked, h.fresh, ⟨cur, hw, hlt, hnc⟩, h.closed⟩⟩
    · simp only [hs, Bool.false_eq_true, if_false, ha]
      exact ⟨by simp, by simp, fun _ =>
        ⟨by simp, Or.inr rfl, by simp, by simp, ⟨cur, hw, hlt, hnc⟩, h.closed⟩⟩
  | stopChan =>
    rw [loopIter_stopChan entry recursive w s cur hw]
    refine ⟨by simp, ?_, by simp⟩
    have ha : (kill w s).1.alive = s.alive := by
      unfold kill
      cases hp : s.proc with
      | none => rfl
      | some p =>
        by_cases hf : w.killFails = true
        · simp [hf]
        · simp [hf]
    have hc : ∀ t : State, (closeWatcher w cur t).1.alive = t.alive := by
      intro t
      unfold closeWatcher
      by_cases hf : w.closeFails = true
      · simp [hf]
      · simp [hf]
    simp only [hc]
    cases hk : (kill w s).2 with
    | none => simpa [ha] using hlen
    | some e => simpa [ha] using hlen

theorem step_inv (entry : Str) (recursive : Bool) (s : State) (i : Input)
    (h : Inv s) :
    (step entry recursive s i).2 ≠ .blocked ∧
    (step entry recursive s i).1.alive.length ≤ 1 ∧
    ((step entry recursive s i).2 = .next → Inv (step entry recursive s i).1) := by
  have hlen := inv_alive_length s h
  cases i with
  | exit pid =>
    simp only [step]
    have hal : List.filter (fun p => decide (p ≠ pid)) s.alive = [] ∨
        List.filter (fun p => decide (p ≠ pid)) s.alive = [s.procChan] := by
      rcases h.alive with ha | ha
      · simp [ha]
      · rw [ha]
        by_cases hp : s.procChan = pid
        · simp [hp]
        · simp [hp]
    refine ⟨by simp, ?_, fun _ => ⟨h.tracked, hal, ?_, h.fresh, h.watcher, h.closed⟩⟩
    · exact le_trans (List.length_filter_le _ _) hlen
    · intro hp
      simp [h.untracked hp]
  | interrupt =>
    simp only [step, handleInterrupt]
    by_cases hs : s.stopClosed = true
    · simp only [hs, if_true]
      exact ⟨by simp, hlen, fun _ => h⟩
    · simp only [hs, Bool.false_eq_true, if_false]
      exact ⟨by simp, hlen, fun _ =>
        ⟨h.tracked, h.alive, h.untracked, h.fresh, h.watcher, h.closed⟩⟩
  | service src w =>
    simp only [step]
    by_cases he : enabled s src = true
    · simp only [he, if_true]
      exact loopIter_inv entry recursive w s src h he
    · simp only [he, Bool.false_eq_true, if_false]
      exact ⟨by simp, hlen, fun _ => h⟩

theorem loop_inv (entry : Str) (recursive : Bool) (inputs : List Input) :
    ∀ s : State, Inv s →
      (loop entry recursive s inputs).2 ≠ .blocked ∧
      (loop entry recursive s inputs).1.alive.length ≤ 1 ∧
      ((loop entry recursive s inputs).2 = .next →
        Inv (loop entry recursive s inputs).1) := by
  induction inputs with
  | nil =>
    intro s h
    simp only [loop]
    exact ⟨by simp, inv_alive_length s h, fun _ => h⟩
  | cons i is ih =>
    intro s h
    have hs := step_inv entry recursive s i h
    unfold loop
    rcases hst : step entry recursive s i with ⟨s1, st⟩
    rw [hst] at hs
    cases st with
    | next => exact ih s1 (hs.2.2 rfl)
    | returned => exact ⟨by simp, hs.2.1, by simp⟩
    | panicked => exact ⟨by simp, hs.2.1, by simp⟩
    | blocked => exact absurd rfl hs.1

/-- The state in which `main` calls `loop` satisfies the invariant. -/
theorem main_inv (w : World) (recursive : Bool) (entry : Str) (s0 : State)
    (h : main w recursive entry = .ok s0) : Inv s0 := by
  unfold main at h
  cases hb : build w.buildEnv entry with
  | error e => simp [hb] at h
  | ok deps =>
    simp only [hb] at h
    cases hn : newWatcher w.watchEnv 0 deps recursive with
    | error e => simp [hn] at h
    | ok nw =>
      have hid := newWatcher_id _ _ _ _ _ hn
      simp only [hn, run] at h
      by_cases hs : w.startFails = true
      · simp [hs] at h
      · simp only [hs, Bool.false_eq_true, if_false, Except.ok.injEq] at h
        subst h
        exact ⟨by simp, Or.inr rfl, by simp, by simp,
          ⟨nw, rfl, by simp [hid], by simp⟩, by simp⟩

/-- Every state in which the loop starts an iteration, in any run of the program
after a successful start, satisfies the invariant. -/
theorem reachable_inv (w0 : World) (recursive : Bool) (entry : Str) (s0 : State)
    (h : main w0 recursive entry = .ok s0) (inputs : List Input)
    (hn : (loop entry recursive s0 inputs).2 = .next) :
    Inv (loop entry recursive s0 inputs).1 :=
  (loop_inv entry recursive inputs s0 (main_inv w0 recursive entry s0 h)).2.2 hn

/-- In the example world `main` enters `loop` in `stateExample`. -/
theorem main_example :
    main (worldExample true true) false entryExample = .ok stateExample := by
  decide

/-- A file-change event with one of the three bits set, serviced in a state of
the invariant in which `kill()` returns no error, runs the rest of the rebuild
branch from a state in which the old process is killed and untracked. -/
theorem events_rebuild (entry : Str) (recursive : Bool) (w : World) (s : State)
    (cur : Watcher) (op : Nat) (hi : Inv s) (hw : s.watcher = some cur)
    (hop : op &&& (Create ||| Remove ||| Write) > 0)
    (hk : s.proc = none ∨ w.killFails = false) :
    ∃ s2, Killed cur s2 ∧ s2.trace = s.trace ++ killTrace s.proc ∧
      s2.alive = s.alive ∧ s2.procChan = s.procChan ∧ s2.closed = s.closed ∧
      s2.nextPid = s.nextPid ∧ s2.nextWatcher = s.nextWatcher ∧
      s2.stopClosed = s.stopClosed ∧
      loopIter entry recursive w s (.events op) = rebuild entry recursive w cur s2 := by
  rw [loopIter_events entry recursive w s cur op hw]
  simp only [hop, if_true]
  rcases hkk : kill w { s with logs := s.logs ++ [.detected] } with ⟨s2, _ | e⟩
  · have := kill_killed w s s2 cur hi hw _ hkk
    refine ⟨s2, this.1, ?_, this.2.2.1, this.2.2.2.1, this.2.2.2.2.1,
      this.2.2.2.2.2.1, this.2.2.2.2.2.2.1, this.2.2.2.2.2.2.2, rfl⟩
    rw [this.2.1]
    cases s.proc <;> rfl
  · exfalso
    unfold kill at hkk
    rcases hk with hp | hf
    · simp [hp] at hkk
    · cases hp : s.proc with
      | none => simp [hp] at hkk
      | some p => simp [hp, hf] at hkk

/-! ## Claims about the loop -/

/-- Claim C10: at the top of every loop iteration reachable from the state in
which `main` calls `loop`, if no process is tracked (`proc` is nil) then the
channel `procChan` is already closed; and no iteration ever waits in the drain
`<-procChan` for a process that runs on. -/
theorem untracked_chan_closed (w0 : World) (recursive : Bool) (entry : Str)
    (s0 : State) (h : main w0 recursive entry = .ok s0) (inputs : List Input) :
    (loop entry recursive s0 inputs).2 ≠ .blocked ∧
    ((loop entry recursive s0 inputs).2 = .next →
      (loop entry recursive s0 inputs).1.proc = none →
        chanClosed (loop entry recursive s0 inputs).1 = true) := by
  have hi := loop_inv entry recursive inputs s0 (main_inv w0 recursive entry s0 h)
  refine ⟨hi.1, fun hn hp => ?_⟩
  have ha := (hi.2.2 hn).untracked hp
  simp [chanClosed, ha]

/-- After a rebuild whose build failed nothing is tracked, and the channel is
closed, in the run that `untracked_chan_closed` is applied to. -/
theorem untracked_chan_closed_witness :
    main (worldExample true true) false entryExample = .ok stateExample ∧
    (loop entryExample false stateExample
      [.service (.events Write) (worldExample false true)]).1.proc = none ∧
    chanClosed (loop entryExample false stateExample
      [.service (.events Write) (worldExample false true)]).1 = true :=
  ⟨main_example, by decide,
    (untracked_chan_closed (worldExample true true) false entryExample stateExample
      main_example [.service (.events Write) (worldExample false true)]).2
      (by decide) (by decide)⟩

/-- With the goroutine of `run` inside `proc.Wait()` before its process is
killed: in every state reachable from the call of `loop` at most one started
process has not yet exited; and a rebuild iteration in which `kill`, `build`,
`watcher.Close`, `newWatcher` and `run` all succeed ends with exactly one
running process, which is the tracked one and is a newly started one: it is
not the process tracked before and was not running before. -/
theorem one_fresh_process (w0 : World) (recursive : Bool) (entry : Str)
    (s0 : State) (h : main w0 recursive entry = .ok s0) (inputs : List Input) :
    (loop entry recursive s0 inputs).1.alive.length ≤ 1 ∧
    ((loop entry recursive s0 inputs).2 = .next →
      ∀ (op : Nat) (w : World) (deps : List Str) (nw : Watcher),
        op &&& (Create ||| Remove ||| Write) > 0 →
        w.killFails = false →
        build w.buildEnv entry = .ok deps →
        w.closeFails = false →
        newWatcher w.watchEnv (loop entry recursive s0 inputs).1.nextWatcher deps
          recursive = .ok nw →
        w.startFails = false →
        ∃ p,
          (loopIter entry recursive w (loop entry recursive s0 inputs).1
            (.events op)).2 = .next ∧
          (loopIter entry recursive w (loop entry recursive s0 inputs).1
            (.events op)).1.alive = [p] ∧
          (loopIter entry recursive w (loop entry recursive s0 inputs).1
            (.events op)).1.proc = some p ∧
          (loopIter entry recursive w (loop entry recursive s0 inputs).1
            (.events op)).1.procChan = p ∧
          (loop entry recursive s0 inputs).1.proc ≠ some p ∧
          p ∉ (loop entry recursive s0 inputs).1.alive) := by
  have hi := loop_inv entry recursive inputs s0 (main_inv w0 recursive entry s0 h)
  refine ⟨hi.2.1, fun hn op w deps nw hop hk hb hc hnw hs => ?_⟩
  generalize (loop entry recursive s0 inputs).1 = s at hi hnw ⊢
  have hinv := hi.2.2 hn
  obtain ⟨cur, hw, _, _⟩ := hinv.watcher
  obtain ⟨s2, hkd, _, _, _, _, hpid, hnext, _, hl⟩ :=
    events_rebuild entry recursive w s cur op hinv hw hop (Or.inr hk)
  rw [← hnext] at hnw
  rw [hl, rebuild_new_watcher entry recursive w cur nw s2 deps hkd hb hc hnw]
  rw [if_neg (by simp [hs])]
  refine ⟨s2.nextPid, rfl, rfl, rfl, rfl, ?_, ?_⟩ <;> rw [hpid]
  · intro hp
    have := hinv.tracked _ hp
    have := hinv.fresh
    omega
  · intro hm
    rcases hinv.alive with ha | ha
    · simp [ha] at hm
    · rw [ha] at hm
      have := hinv.fresh
      simp at hm
      omega

/-- The rebuild of the example: process 0 is replaced by process 1. -/
theorem one_fresh_process_witness :
    main (worldExample true true) false entryExample = .ok stateExample ∧
    (loop entryExample false stateExample []).1.alive.length ≤ 1 ∧
    ∃ p,
      (loopIter entryExample false (worldExample true true)
        (loop entryExample false stateExample []).1 (.events Write)).2 = .next ∧
      (loopIter entryExample false (worldExample true true)
        (loop entryExample false stateExample []).1 (.events Write)).1.alive = [p] ∧
      (loopIter entryExample false (worldExample true true)
        (loop entryExample false stateExample []).1 (.events Write)).1.proc = some p ∧
      (loopIter entryExample false (worldExample true true)
        (loop entryExample false stateExample []).1 (.events Write)).1.procChan = p ∧
      (loop entryExample false stateExample []).1.proc ≠ some p ∧
      p ∉ (loop entryExample false stateExample []).1.alive :=
  ⟨main_example,
    (one_fresh_process (worldExample true true) false entryExample stateExample
      main_example []).1,
    (one_fresh_process (worldExample true true) false entryExample stateExample
      main_example []).2 rfl Write (worldExample true true)
      ["/gp/src/modA".toList]
      ⟨1, ["/w".toList, "/gp/src/modA".toList, "/gp/src/modA/sub".toList]⟩
      (by decide) rfl (by decide) rfl (by decide) rfl⟩

/-- Claim C2 as stated fails: after a file change whose build fails, the next
iteration services the closed channel `procChan` and calls `run`; process 1 is
started although no further file change and no shutdown has been serviced. -/
theorem failed_build_restarts :
    (loop entryExample false stateExample
      [.service (.events Write) (worldExample false true),
       .service .procChan (worldExample true true)]).1.trace =
      stateExample.trace ++
        [.kill 0 true, .recv 0, .build false, .start (some 1)] ∧
    (loop entryExample false stateExample
      [.service (.events Write) (worldExample false true),
       .service .procChan (worldExample true true)]).1.alive = [1] := by
  decide

/-- Claim C2, amended: when a file-change event is serviced in a state of the
invariant, `kill()` returns no error and the build fails, then the loop goes
on, the previously tracked process is terminated and nothing is tracked, the
watcher handle is the one from before the event (not closed, not replaced) and
`run` is not called in that iteration. The channel `procChan` is still the
drained one, which is closed: the case `<-procChan` can be chosen in the next
iteration, and servicing it calls `run` with no file change and no shutdown
in between. -/
theorem failed_build_iteration (entry : Str) (recursive : Bool) (w : World)
    (s : State) (op : Nat) (e : Err) (hi : Inv s)
    (hop : op &&& (Create ||| Remove ||| Write) > 0)
    (hk : s.proc = none ∨ w.killFails = false)
    (hb : build w.buildEnv entry = .error e) :
    (loopIter entry recursive w s (.events op)).2 = .next ∧
    (loopIter entry recursive w s (.events op)).1.watcher = s.watcher ∧
    (loopIter entry recursive w s (.events op)).1.closed = s.closed ∧
    (loopIter entry recursive w s (.events op)).1.proc = none ∧
    (loopIter entry recursive w s (.events op)).1.alive = [] ∧
    (loopIter entry recursive w s (.events op)).1.trace =
      s.trace ++ killTrace s.proc ++ [.recv s.procChan, .build false] ∧
    (loopIter entry recursive w s (.events op)).1.procChan = s.procChan ∧
    enabled (loopIter entry recursive w s (.events op)).1 .procChan = true ∧
    ∀ w2 : World,
      (loopIter entry recursive w2 (loopIter entry recursive w s (.events op)).1
        .procChan).1.trace =
        (loopIter entry recursive w s (.events op)).1.trace ++
          [.start (if w2.startFails then none else some s.nextPid)] := by
  obtain ⟨cur, hw, _, _⟩ := hi.watcher
  obtain ⟨s2, hkd, htr, _, hpc, hcl, hpid, _, _, hl⟩ :=
    events_rebuild entry recursive w s cur op hi hw hop hk
  rw [hl, rebuild_build_fails entry recursive w cur s2 e hkd hb]
  refine ⟨rfl, ?_, hcl, hkd.proc, rfl, ?_, hpc, ?_, ?_⟩
  · exact hkd.watcher.1.trans hw.symm
  · simp [htr, hpc]
  · simp [enabled, chanClosed]
  · intro w2
    rw [← hpid]
    exact procChan_trace entry recursive w2
      { s2 with
        alive := []
        trace := s2.trace ++ [.recv s2.procChan, .build false]
        logs := s2.logs ++ [.error e] } cur hkd.watcher.1

/-- The failed build of the example, and the restart that follows it. -/
theorem failed_build_iteration_witness :
    (loopIter entryExample false (worldExample false true) stateExample
      (.events Write)).2 = .next ∧
    (loopIter entryExample false (worldExample false true) stateExample
      (.events Write)).1.alive = [] ∧
    enabled (loopIter entryExample false (worldExample false true) stateExample
      (.events Write)).1 .procChan = true :=
  have h := failed_build_iteration entryExample false (worldExample false true)
    stateExample Write .vgoBuild (main_inv _ _ _ _ main_example) (by decide)
    (Or.inr rfl) (by decide)
  ⟨h.1, h.2.2.2.2.1, h.2.2.2.2.2.2.2.1⟩

/-- Claim C3 as stated fails: after the tracked process has exited and the
start attempt has failed, the closed channel is serviced again and `run` is
called a second time, with no file change serviced in between. -/
theorem failed_start_retried :
    (loop entryExample false stateExample
      [.exit 0, .service .procChan (worldExample true false),
       .service .procChan (worldExample true true)]).1.trace =
      stateExample.trace ++ [.start none, .start (some 1)] := by
  decide

/-- Claim C3, amended: when the channel `procChan` is closed and its case is
serviced in a state of the invariant, the loop makes exactly one start attempt
in that iteration. If it succeeds, the new process is the only running one and
the tracked one, and `procChan` is its new, open channel. If it fails, no
process is running and the watcher is unchanged, but `procChan` is still the
closed channel: its case can be chosen again, and each later servicing of it
makes a further start attempt, with no file change needed. -/
theorem exit_restart (entry : Str) (recursive : Bool) (w : World) (s : State)
    (hi : Inv s) (hc : chanClosed s = true) :
    (loopIter entry recursive w s .procChan).2 = .next ∧
    (loopIter entry recursive w s .procChan).1.trace =
      s.trace ++ [.start (if w.startFails then none else some s.nextPid)] ∧
    (loopIter entry recursive w s .procChan).1.watcher = s.watcher ∧
    (loopIter entry recursive w s .procChan).1.closed = s.closed ∧
    (w.startFails = false →
      (loopIter entry recursive w s .procChan).1.proc = some s.nextPid ∧
      (loopIter entry recursive w s .procChan).1.alive = [s.nextPid] ∧
      (loopIter entry recursive w s .procChan).1.procChan = s.nextPid ∧
      chanClosed (loopIter entry recursive w s .procChan).1 = false ∧
      s.proc ≠ some s.nextPid ∧ s.procChan ≠ s.nextPid) ∧
    (w.startFails = true →
      (loopIter entry recursive w s .procChan).1.alive = [] ∧
      (loopIter entry recursive w s .procChan).1.procChan = s.procChan ∧
      enabled (loopIter entry recursive w s .procChan).1 .procChan = true ∧
      ∀ w2 : World,
        (loopIter entry recursive w2 (loopIter entry recursive w s .procChan).1
          .procChan).1.trace =
          (loopIter entry recursive w s .procChan).1.trace ++
            [.start (if w2.startFails then none else some s.nextPid)]) := by
  obtain ⟨cur, hw, _, _⟩ := hi.watcher
  have ha := inv_closed_chan s hi hc
  rw [loopIter_procChan entry recursive w s cur hw]
  by_cases hs : w.startFails = true
  · rw [if_pos hs, if_pos hs]
    refine ⟨rfl, rfl, rfl, rfl, by simp [hs], fun _ => ⟨ha, rfl, ?_, ?_⟩⟩
    · simpa [enabled, chanClosed] using hc
    · intro w2
      exact procChan_trace entry recursive w2
        { s with
          trace := s.trace ++ [.start none]
          logs := s.logs ++ [.error .start] } cur hw
  · rw [if_neg hs, if_neg hs]
    refine ⟨rfl, rfl, rfl, rfl, fun _ => ⟨rfl, by simp [ha], rfl, ?_, ?_, ?_⟩,
      fun h => absurd h hs⟩
    · simp [chanClosed, ha]
    · intro hp
      have := hi.tracked _ hp
      have := hi.fresh
      omega
    · have := hi.fresh
      omega

/-- The restart of the example after process 0 has exited. -/
theorem exit_restart_witness :
    (loopIter entryExample false (worldExample true true)
      { stateExample with alive := [] } .procChan).2 = .next ∧
    (loopIter entryExample false (worldExample true true)
      { stateExample with alive := [] } .procChan).1.trace =
      stateExample.trace ++ [.start (some 1)] :=
  have h := exit_restart entryExample false (worldExample true true)
    { stateExample with alive := [] }
    ⟨by decide, Or.inl rfl, by decide, by decide,
      ⟨watcherExample, rfl, by decide, by decide⟩, by decide⟩ (by decide)
  ⟨h.1, h.2.1⟩

/-! ## Shutdown -/

/-- Claim C6: servicing the shutdown signal calls `kill()` on the tracked
process if there is one (on success the process is killed and untracked; an
error is logged and the shutdown goes on), then closes the current watcher, and
`loop` returns: whatever is offered to the loop afterwards is not serviced, and
the iteration itself makes no start attempt, so `run` is never called after
the shutdown signal has been serviced. -/
theorem stop_shuts_down (entry : Str) (recursive : Bool) (w : World) (s : State)
    (cur : Watcher) (rest : List Input) (hw : s.watcher = some cur)
    (he : s.stopClosed = true) :
    loop entry recursive s (.service .stopChan w :: rest) =
      loopIter entry recursive w s .stopChan ∧
    (loopIter entry recursive w s .stopChan).2 = .returned ∧
    (loopIter entry recursive w s .stopChan).1.trace =
      s.trace ++ killAttempt w s.proc ++ [.close cur.id (!w.closeFails)] ∧
    (∀ p, s.proc = some p → w.killFails = false →
      (loopIter entry recursive w s .stopChan).1.proc = none ∧
      p ∈ (loopIter entry recursive w s .stopChan).1.signalled) ∧
    (∀ p, s.proc = some p → w.killFails = true →
      LogLine.error (.kill p) ∈ (loopIter entry recursive w s .stopChan).1.logs) ∧
    (w.closeFails = false →
      cur.id ∈ (loopIter entry recursive w s .stopChan).1.closed) ∧
    (loopIter entry recursive w s .stopChan).1.alive = s.alive := by
  have hret : (loopIter entry recursive w s .stopChan).2 = .returned := by
    rw [loopIter_stopChan entry recursive w s cur hw]
  refine ⟨?_, hret, ?_⟩
  · have hen : enabled s .stopChan = true := he
    rcases hl : loopIter entry recursive w s .stopChan with ⟨s1, st⟩
    rw [hl] at hret
    simp only at hret
    subst hret
    simp only [loop, step, hen, if_true, hl]
  · rw [loopIter_stopChan entry recursive w s cur hw]
    cases hp : s.proc with
    | none =>
      by_cases hc : w.closeFails = true
      · simp [kill, hp, closeWatcher, hc, killAttempt]
      · simp [kill, hp, closeWatcher, hc, killAttempt]
    | some p =>
      by_cases hc : w.closeFails = true
      · by_cases hf : w.killFails = true
        · simp [kill, hp, closeWatcher, hc, killAttempt, hf]
        · simp [kill, hp, closeWatcher, hc, killAttempt, hf]
      · by_cases hf : w.killFails = true
        · simp [kill, hp, closeWatcher, hc, killAttempt, hf]
        · simp [kill, hp, closeWatcher, hc, killAttempt, hf]

/-- The shutdown of the example: process 0 is killed, watcher 0 is closed, and
the file change offered afterwards is not serviced. -/
theorem stop_shuts_down_witness :
    loop entryExample false { stateExample with stopClosed := true }
        [.service .stopChan (worldExample true true),
         .service (.events Write) (worldExample true true)] =
      loopIter entryExample false (worldExample true true)
        { stateExample with stopClosed := true } .stopChan ∧
    (loopIter entryExample false (worldExample true true)
      { stateExample with stopClosed := true } .stopChan).1.trace =
      stateExample.trace ++ [.kill 0 true, .close 0 true] :=
  have h := stop_shuts_down entryExample false (worldExample true true)
    { stateExample with stopClosed := true } watcherExample
    [.service (.events Write) (worldExample true true)] rfl rfl
  ⟨h.1, h.2.2.1⟩

/-! ## The order of a rebuild -/

/-- Claim C7: in a rebuild iteration in which `kill`, `build`, `watcher.Close`
and `newWatcher` succeed, the calls are made in this order: the old process is
killed, its channel is drained, the build runs, the old watcher is closed, the
new watcher is created with its directories registered, and then the start is
attempted. The old process is not running afterwards, the new watcher is a
handle different from the closed one, and it is the one the loop goes on
with. -/
theorem rebuild_order (entry : Str) (recursive : Bool) (w : World) (s : State)
    (cur nw : Watcher) (op : Nat) (deps : List Str) (hi : Inv s)
    (hw : s.watcher = some cur)
    (hop : op &&& (Create ||| Remove ||| Write) > 0)
    (hk : s.proc = none ∨ w.killFails = false)
    (hb : build w.buildEnv entry = .ok deps) (hc : w.closeFails = false)
    (hn : newWatcher w.watchEnv s.nextWatcher deps recursive = .ok nw) :
    (loopIter entry recursive w s (.events op)).2 = .next ∧
    (loopIter entry recursive w s (.events op)).1.trace =
      s.trace ++ killTrace s.proc ++
        [.recv s.procChan, .build true, .close cur.id true, .newWatcher (some nw),
         .start (if w.startFails then none else some s.nextPid)] ∧
    (loopIter entry recursive w s (.events op)).1.watcher = some nw ∧
    nw.id ≠ cur.id ∧
    (loopIter entry recursive w s (.events op)).1.closed = cur.id :: s.closed ∧
    nw.id ∉ (loopIter entry recursive w s (.events op)).1.closed ∧
    (∀ p, s.proc = some p →
      p ∉ (loopIter entry recursive w s (.events op)).1.alive) := by
  obtain ⟨s2, hkd, htr, _, hpc, hcl, hpid, hnext, _, hl⟩ :=
    events_rebuild entry recursive w s cur op hi hw hop hk
  obtain ⟨_, hlt, hnc⟩ := hkd.watcher
  rw [← hnext] at hn
  have hid := newWatcher_id _ _ _ _ _ hn
  have hne : nw.id ≠ cur.id := by omega
  have hnotin : nw.id ∉ cur.id :: s2.closed := by
    intro hm
    rcases List.mem_cons.1 hm with h1 | h1
    · exact hne h1
    · have := hkd.closed _ h1
      omega
  rw [hl, rebuild_new_watcher entry recursive w cur nw s2 deps hkd hb hc hn]
  by_cases hs : w.startFails = true
  · rw [if_pos hs, if_pos hs]
    refine ⟨rfl, ?_, rfl, hne, ?_, hnotin, ?_⟩
    · simp [htr, hpc]
    · simp [hcl]
    · intro p _
      simp
  · rw [if_neg hs, if_neg hs]
    refine ⟨rfl, ?_, rfl, hne, ?_, hnotin, ?_⟩
    · simp [htr, hpc, hpid]
    · simp [hcl]
    · intro p hp
      have h1 := hi.tracked _ hp
      have h2 := hi.fresh
      simp only [List.mem_singleton]
      omega

/-- The rebuild of the example, in order. -/
theorem rebuild_order_witness :
    (loopIter entryExample false (worldExample true true) stateExample
      (.events Write)).1.trace =
      stateExample.trace ++
        [.kill 0 true, .recv 0, .build true, .close 0 true,
         .newWatcher (some ⟨1, watcherExample.paths⟩), .start (some 1)] :=
  (rebuild_order entryExample false (worldExample true true) stateExample
    watcherExample ⟨1, watcherExample.paths⟩ Write ["/gp/src/modA".toList]
    (main_inv _ _ _ _ main_example) rfl (by decide) (Or.inr rfl) (by decide) rfl
    (by decide)).2.1

/-! ## The event filter, on the loop -/

theorem kill_logs (w : World) (s : State) :
    ∃ rest, (kill w s).1.logs = s.logs ++ rest := by
  unfold kill
  cases hp : s.proc with
  | none => exact ⟨[], by simp⟩
  | some p =>
    by_cases hf : w.killFails = true
    · exact ⟨[.stopping p], by simp [hf]⟩
    · exact ⟨[.stopping p], by simp [hf]⟩

theorem recv_logs (s s1 : State) (h : recvProcChan s = some s1) :
    s1.logs = s.logs := by
  unfold recvProcChan at h
  by_cases ha : s.alive.contains s.procChan = true
  · by_cases hs : s.signalled.contains s.procChan = true
    · rw [if_pos ha, if_pos hs] at h
      cases h
      rfl
    · rw [if_pos ha, if_neg hs] at h
      cases h
  · rw [if_neg ha] at h
    cases h
    rfl

theorem rebuild_logs (entry : Str) (recursive : Bool) (w : World) (cur : Watcher)
    (s : State) : ∃ rest, (rebuild entry recursive w cur s).1.logs = s.logs ++ rest := by
  unfold rebuild
  cases hr : recvProcChan s with
  | none => exact ⟨[], by simp⟩
  | some s1 =>
    have h1 := recv_logs s s1 hr
    cases hb : build w.buildEnv entry with
    | error e => exact ⟨[.error e], by simp [h1]⟩
    | ok deps =>
      by_cases hc : w.closeFails = true
      · exact ⟨[.error .watcherClose], by simp [closeWatcher, hc, h1]⟩
      · cases hn : newWatcher w.watchEnv s1.nextWatcher deps recursive with
        | error e =>
          refine ⟨[.error e], ?_⟩
          simp only [closeWatcher, hc, Bool.false_eq_true, if_false, hn, h1]
        | ok nw =>
          by_cases hs : w.startFails = true
          · refine ⟨[.error .start], ?_⟩
            simp only [closeWatcher, hc, Bool.false_eq_true, if_false, hn, run, hs,
              if_true, h1]
          · refine ⟨[.running s1.nextPid], ?_⟩
            simp only [closeWatcher, hc, Bool.false_eq_true, if_false, hn, run, hs, h1]

/-- Claim C9: the loop enters the rebuild branch, whose first statement logs
the detected change, if and only if the operation mask of the event has the
create, the remove or the write bit; an event with none of these bits (rename
and chmod only) leaves the whole state as it is, so nothing is killed, built,
closed or started, and the loop goes on. -/
theorem event_filter (entry : Str) (recursive : Bool) (w : World) (s : State)
    (cur : Watcher) (op : Nat) (hw : s.watcher = some cur) :
    ((∃ rest, (loopIter entry recursive w s (.events op)).1.logs =
        s.logs ++ LogLine.detected :: rest) ↔
      (op &&& Create ≠ 0 ∨ op &&& Remove ≠ 0 ∨ op &&& Write ≠ 0)) ∧
    (¬ (op &&& Create ≠ 0 ∨ op &&& Remove ≠ 0 ∨ op &&& Write ≠ 0) →
      loopIter entry recursive w s (.events op) = (s, .next)) := by
  rw [← mask_bits op, loopIter_events entry recursive w s cur op hw]
  by_cases hop : op &&& (Create ||| Remove ||| Write) > 0
  · simp only [hop, if_true, iff_true, not_true_eq_false, false_implies, and_true]
    obtain ⟨r1, h1⟩ := kill_logs w { s with logs := s.logs ++ [.detected] }
    rcases hk : kill w { s with logs := s.logs ++ [.detected] } with ⟨s2, _ | e⟩
    · rw [hk] at h1
      have h1b : s2.logs = (s.logs ++ [.detected]) ++ r1 := h1
      obtain ⟨r2, h2⟩ := rebuild_logs entry recursive w cur s2
      exact ⟨r1 ++ r2, by simp [h2, h1b]⟩
    · rw [hk] at h1
      have h1b : s2.logs = (s.logs ++ [.detected]) ++ r1 := h1
      exact ⟨r1 ++ [.error e], by simp [h1b]⟩
  · simp only [hop, if_false, iff_false, not_false_eq_true, true_implies, and_true]
    rintro ⟨rest, h⟩
    have := congrArg List.length h
    simp at this

/-- A chmod event leaves the example state as it is; a write event does not. -/
theorem event_filter_witness :
    loopIter entryExample false (worldExample true true) stateExample
      (.events Chmod) = (stateExample, .next) ∧
    ∃ rest, (loopIter entryExample false (worldExample true true) stateExample
      (.events Write)).1.logs = stateExample.logs ++ LogLine.detected :: rest :=
  ⟨(event_filter entryExample false (worldExample true true) stateExample
      watcherExample Chmod rfl).2 (by decide),
   (event_filter entryExample false (worldExample true true) stateExample
      watcherExample Write rfl).1.2 (by decide)⟩

/-! ## `listSubDir` and `newWatcher`: the registered directories -/

mutual
theorem walk_eq : ∀ (n : Node) (path : Str) (dirs out : List Str),
    walk path n dirs = .ok out → out = dirs ++ dirsBelow path n
  | .gone, path, dirs, out, h => by simp [walk] at h
  | .file, path, dirs, out, h => by
    simp only [walk, Except.ok.injEq] at h
    simp [dirsBelow, h]
  | .locked, path, dirs, out, h => by simp [walk] at h
  | .dir entries, path, dirs, out, h => by
    rw [walk] at h
    have := walkEntries_eq entries path _ _ h
    simp [dirsBelow, this]
theorem walkEntries_eq : ∀ (es : List (Str × Node)) (path : Str) (dirs out : List Str),
    walkEntries path es dirs = .ok out → out = dirs ++ dirsBelowEntries path es
  | [], path, dirs, out, h => by
    simp only [walkEntries, Except.ok.injEq] at h
    simp [dirsBelowEntries, h]
  | (name, n) :: es, path, dirs, out, h => by
    rw [walkEntries] at h
    cases hw : walk (Join [path, name]) n dirs with
    | error e => simp [hw] at h
    | ok d1 =>
      simp only [hw] at h
      have h1 := walk_eq n _ _ _ hw
      have h2 := walkEntries_eq es path _ _ h
      simp [dirsBelowEntries, h2, h1]
end

mutual
theorem mem_dirsBelow : ∀ (n : Node) (path d : Str),
    d ∈ dirsBelow path n ↔ IsDirAt path n d
  | .gone, path, d => by
    simp only [dirsBelow, List.not_mem_nil, false_iff]
    intro h
    cases h
  | .file, path, d => by
    simp only [dirsBelow, List.not_mem_nil, false_iff]
    intro h
    cases h
  | .locked, path, d => by
    simp only [dirsBelow, List.mem_singleton]
    constructor
    · rintro rfl
      exact .locked _
    · intro h
      cases h
      rfl
  | .dir entries, path, d => by
    simp only [dirsBelow, List.mem_cons]
    have ih := mem_dirsBelowEntries entries path d
    constructor
    · rintro (rfl | h)
      · exact .self _ _
      · obtain ⟨name, n, hm, hd⟩ := ih.1 h
        exact .inside _ _ name n _ hm hd
    · intro h
      cases h with
      | self => exact Or.inl rfl
      | inside _ _ name n _ hm hd => exact Or.inr (ih.2 ⟨name, n, hm, hd⟩)
theorem mem_dirsBelowEntries : ∀ (es : List (Str × Node)) (path d : Str),
    d ∈ dirsBelowEntries path es ↔
      ∃ name n, (name, n) ∈ es ∧ IsDirAt (Join [path, name]) n d
  | [], path, d => by simp [dirsBelowEntries]
  | (name, n) :: es, path, d => by
    simp only [dirsBelowEntries, List.mem_append, List.mem_cons, Prod.mk.injEq]
    rw [mem_dirsBelow n _ d, mem_dirsBelowEntries es path d]
    constructor
    · rintro (h | ⟨a, b, hm, hd⟩)
      · exact ⟨name, n, Or.inl ⟨rfl, rfl⟩, h⟩
      · exact ⟨a, b, Or.inr hm, hd⟩
    · rintro ⟨a, b, (⟨rfl, rfl⟩ | hm), hd⟩
      · exact Or.inl hd
      · exact Or.inr ⟨a, b, hm, hd⟩
end

/-- A successful `listSubDir(root)` returns the directories of the tree at
`root`, in the order of the walk. -/
theorem listSubDir_eq (env : WatchEnv) (root : Str) (dirs : List Str)
    (h : listSubDir env root = .ok dirs) :
    dirs = dirsBelow root (env.lstat root) := by
  have := walk_eq (env.lstat root) root [] dirs h
  simpa using this

theorem addDirs_paths (env : WatchEnv) (dirs : List Str) :
    ∀ w w1 : Watcher, addDirs env w dirs = (w1, none) →
      w1.paths = w.paths ++ dirs := by
  induction dirs with
  | nil =>
    intro w w1 h
    simp only [addDirs, Prod.mk.injEq, and_true] at h
    simp [h]
  | cons d ds ih =>
    intro w w1 h
    unfold addDirs at h
    by_cases hf : env.addFails d = true
    · simp [hf] at h
    · simp only [hf, Bool.false_eq_true, if_false] at h
      have := ih _ _ h
      simpa using this

theorem addRoots_paths (env : WatchEnv) (roots : List Str) :
    ∀ w w1 : Watcher, addRoots env w roots = (w1, none) →
      w1.paths = w.paths ++ roots.flatMap (fun r => dirsBelow r (env.lstat r)) := by
  induction roots with
  | nil =>
    intro w w1 h
    simp only [addRoots, Prod.mk.injEq, and_true] at h
    simp [h]
  | cons r rs ih =>
    intro w w1 h
    unfold addRoots at h
    cases hl : listSubDir env r with
    | error e => simp [hl] at h
    | ok dirs =>
      simp only [hl] at h
      have hd := listSubDir_eq env r dirs hl
      rcases ha : addDirs env w dirs with ⟨w2, _ | e⟩
      · rw [ha] at h
        simp only [] at h
        have h1 := addDirs_paths env dirs w w2 ha
        have h2 := ih w2 w1 h
        simp [h2, h1, hd]
      · rw [ha] at h
        simp at h

/-- A successful walk starts at a file or at a directory. -/
theorem walk_ok_root (path : Str) (n : Node) (dirs out : List Str)
    (h : walk path n dirs = .ok out) : n = .file ∨ ∃ es, n = .dir es := by
  cases n with
  | gone => simp [walk] at h
  | file => exact Or.inl rfl
  | locked => simp [walk] at h
  | dir es => exact Or.inr ⟨es, rfl⟩

theorem addRoots_roots (env : WatchEnv) (roots : List Str) :
    ∀ w w1 : Watcher, addRoots env w roots = (w1, none) →
      ∀ r ∈ roots, env.lstat r = .file ∨ ∃ es, env.lstat r = .dir es := by
  induction roots with
  | nil =>
    intro w w1 _ r hr
    simp at hr
  | cons r0 rs ih =>
    intro w w1 h r hr
    unfold addRoots at h
    cases hl : listSubDir env r0 with
    | error e => simp [hl] at h
    | ok dirs =>
      simp only [hl] at h
      rcases ha : addDirs env w dirs with ⟨w2, _ | e⟩
      · rw [ha] at h
        simp only [] at h
        rcases List.mem_cons.1 hr with h1 | h1
        · subst h1
          exact walk_ok_root r (env.lstat r) [] dirs hl
        · exact ih w2 w1 h r h1
      · rw [ha] at h
        simp at h

/-- Claim C5 as stated fails: in a tree in which `Lstat` reports the working
directory `/w` and the dependency path `/gp/src/modA` as non-directories (they
are symbolic links, which the walk does not follow), `newWatcher` with
`recursive=true` succeeds and has registered nothing, neither the working
directory nor the dependency directory. -/
theorem newWatcher_skips_links :
    newWatcher
        { newWatcherFails := false, getwd := some "/w".toList,
          lstat := fun _ => .file, addFails := fun _ => false }
        0 ["/gp/src/modA".toList] true = .ok ⟨0, []⟩ ∧
    newWatcher
        { newWatcherFails := false, getwd := some "/w".toList,
          lstat := fun _ => .file, addFails := fun _ => false }
        0 ["/gp/src/modA".toList] false = .ok ⟨0, ["/w".toList]⟩ := by
  decide

/-- Claim C5, amended: when `newWatcher` succeeds, the directories it has
registered are those of the project followed by those of the dependencies.
With `recursive=false` the project part is the working directory alone (no
subdirectory of it is registered for the project). With `recursive=true`
`Lstat` reports the working directory as a directory or as a non-directory: as
a directory, the project part is the working directory and every descendant
directory of it; as a non-directory (a symbolic link, a file), the project part
is empty. In both cases every dependency path is reported as a directory or as
a non-directory, and the dependency part holds, for every dependency path
reported as a directory, that directory and every descendant directory of it,
and nothing else; a dependency path reported as a non-directory adds nothing.
Descendants are the directories found without following symbolic links. -/
theorem newWatcher_registers (env : WatchEnv) (id : Nat) (deps : List Str)
    (recursive : Bool) (w : Watcher) (pwd : Str)
    (h : newWatcher env id deps recursive = .ok w) (hp : env.getwd = some pwd) :
    ∃ proj depDirs : List Str,
      w.paths = proj ++ depDirs ∧
      (recursive = false → proj = [pwd]) ∧
      (recursive = true →
        (env.lstat pwd = .file ∨ ∃ es, env.lstat pwd = .dir es) ∧
        (∀ d, d ∈ proj ↔ IsDirAt pwd (env.lstat pwd) d) ∧
        (∀ es, env.lstat pwd = .dir es → pwd ∈ proj) ∧
        (env.lstat pwd = .file → proj = [])) ∧
      (∀ dep ∈ deps, env.lstat dep = .file ∨ ∃ es, env.lstat dep = .dir es) ∧
      (∀ d, d ∈ depDirs ↔ ∃ dep ∈ deps, IsDirAt dep (env.lstat dep) d) ∧
      (∀ dep ∈ deps, ∀ es, env.lstat dep = .dir es → dep ∈ depDirs) ∧
      ((∀ dep ∈ deps, env.lstat dep = .file) → depDirs = []) := by
  unfold newWatcher at h
  by_cases hf : env.newWatcherFails = true
  · simp [hf] at h
  · simp only [hf, Bool.false_eq_true, if_false, hp] at h
    rcases ha : addWatchPath env ⟨id, []⟩ [pwd] recursive with ⟨w1, _ | e⟩
    · rw [ha] at h
      simp only [] at h
      rcases hb : addWatchPath env w1 deps true with ⟨w2, _ | e⟩
      · rw [hb] at h
        simp only [Except.ok.injEq] at h
        subst h
        simp only [addWatchPath, if_true] at hb
        have h2 : w2.paths = w1.paths ++
            deps.flatMap (fun r => dirsBelow r (env.lstat r)) :=
          addRoots_paths env deps w1 w2 hb
        have hmem : ∀ d, d ∈ deps.flatMap (fun r => dirsBelow r (env.lstat r)) ↔
            ∃ dep ∈ deps, IsDirAt dep (env.lstat dep) d := by
          intro d
          simp [List.mem_flatMap, mem_dirsBelow]
        refine ⟨w1.paths, deps.flatMap (fun r => dirsBelow r (env.lstat r)), h2,
          ?_, ?_, addRoots_roots env deps w1 w2 hb, hmem, ?_, ?_⟩
        · intro hr
          subst hr
          simp only [addWatchPath, Bool.false_eq_true, if_false] at ha
          simpa using addDirs_paths env [pwd] _ _ ha
        · intro hr
          subst hr
          simp only [addWatchPath, if_true] at ha
          have hpaths := addRoots_paths env [pwd] _ _ ha
          have hproj : w1.paths = dirsBelow pwd (env.lstat pwd) := by
            simpa using hpaths
          refine ⟨addRoots_roots env [pwd] _ _ ha pwd (by simp), ?_, ?_, ?_⟩
          · intro d
            rw [hproj, mem_dirsBelow]
          · intro es hes
            rw [hproj, mem_dirsBelow, hes]
            exact .self _ _
          · intro hfile
            rw [hproj, hfile]
            rfl
        · intro dep hdep es hes
          rw [hmem]
          exact ⟨dep, hdep, by rw [hes]; exact .self _ _⟩
        · intro hall
          apply List.eq_nil_iff_forall_not_mem.2
          intro d hd
          obtain ⟨dep, hdep, hdir⟩ := (hmem d).1 hd
          rw [hall dep hdep] at hdir
          cases hdir
      · rw [hb] at h
        simp at h
    · rw [ha] at h
      simp at h

/-- In the example, a non-recursive watcher registers `/w` for the project (not
`/w/pkg`) and the dependency `/gp/src/modA` with its subdirectory. -/
theorem newWatcher_registers_witness :
    newWatcher watchEnvExample 0 ["/gp/src/modA".toList] false = .ok watcherExample ∧
    "/w/pkg".toList ∉ watcherExample.paths ∧
    ∃ proj depDirs : List Str,
      watcherExample.paths = proj ++ depDirs ∧
      (false = false → proj = ["/w".toList]) ∧
      "/gp/src/modA".toList ∈ depDirs :=
  ⟨by decide, by decide,
    match newWatcher_registers watchEnvExample 0 ["/gp/src/modA".toList] false
      watcherExample "/w".toList (by decide) rfl with
    | ⟨proj, depDirs, h1, h2, _, _, _, h6, _⟩ =>
      ⟨proj, depDirs, h1, h2, h6 _ (by simp) [("sub".toList, .dir [])] (by rfl)⟩⟩

/-! ## The goroutine of `run`: a rebuild before its first scheduling -/

theorem kill_procChan (w : World) (s : State) :
    (kill w s).1.procChan = s.procChan ∧ (kill w s).1.alive = s.alive := by
  unfold kill
  cases hp : s.proc with
  | none => exact ⟨rfl, rfl⟩
  | some p =>
    by_cases hf : w.killFails = true
    · simp [hf]
    · simp [hf]

/-- When the goroutine has run before the kill, the receive of this section is
the receive `recvProcChan`, and it leaves the channel closed. -/
theorem gRecv_scheduled (g : GState) (h : Scheduled g) :
    (gRecv g).map (fun g1 => g1.st) = recvProcChan g.st ∧
    ∀ g1, gRecv g = some g1 → g1.gor = .closed := by
  rcases g with ⟨s, gor⟩
  rcases h with h | ⟨h, ha⟩
  · simp only at h
    subst h
    unfold gRecv recvProcChan schedule
    by_cases ha : s.alive.contains s.procChan = true
    · by_cases hs : s.signalled.contains s.procChan = true
      · simp only [if_pos ha, if_pos hs, Option.map_some', true_and]
        rintro g1 h1
        cases h1
        rfl
      · simp only [if_pos ha, if_neg hs, Option.map_none', true_and]
        rintro g1 h1
        cases h1
    · simp only [if_neg ha, Option.map_some', true_and]
      rintro g1 h1
      cases h1
      rfl
  · simp only at h ha
    subst h
    have ha2 : ¬ (s.alive.contains s.procChan = true) := by
      rw [ha]
      exact Bool.false_ne_true
    unfold gRecv recvProcChan schedule
    simp only [if_neg ha2, Option.map_some', true_and]
    rintro g1 h1
    cases h1
    rfl

/-- When the goroutine has run before the kill, the rebuild branch of this
section is the rebuild branch `rebuild`. -/
theorem gRebuild_scheduled (entry : Str) (recursive : Bool) (w : World)
    (cur : Watcher) (g : GState) (h : Scheduled g) :
    ((gRebuild entry recursive w cur g).1.st, (gRebuild entry recursive w cur g).2) =
      rebuild entry recursive w cur g.st := by
  have hr := gRecv_scheduled g h
  unfold gRebuild rebuild
  cases hg : gRecv g with
  | none =>
    rw [hg] at hr
    simp only [Option.map_none'] at hr
    rw [← hr.1]
  | some g1 =>
    rw [hg] at hr
    simp only [Option.map_some'] at hr
    rw [← hr.1]
    simp only []
    cases hb : build w.buildEnv entry with
    | error e => rfl
    | ok deps =>
      simp only []
      by_cases hc : w.closeFails = true
      · simp [closeWatcher, hc]
      · simp only [closeWatcher, hc, Bool.false_eq_true, if_false]
        cases hn : newWatcher w.watchEnv g1.st.nextWatcher deps recursive with
        | error e => rfl
        | ok nw =>
          simp only [gRun, run]
          by_cases hs : w.startFails = true
          · simp [hs]
          · simp [hs]

/-- The case `<-watcher.Events` of the `select`, written out, with the
goroutine. -/
theorem gLoopIter_events (entry : Str) (recursive : Bool) (w : World) (g : GState)
    (cur : Watcher) (op : Nat) (hw : g.st.watcher = some cur) :
    gLoopIter entry recursive w g (.events op) =
      if op &&& (Create ||| Remove ||| Write) > 0 then
        match kill w { g.st with logs := g.st.logs ++ [.detected] } with
        | (s2, some e) =>
          ({ g with st := { s2 with logs := s2.logs ++ [.error e] } }, .returned)
        | (s2, none) => gRebuild entry recursive w cur { g with st := s2 }
      else (g, .next) := by
  unfold gLoopIter
  rw [hw]

/-- When the goroutine has run before the kill, an iteration of the loop of
this section is the iteration `loopIter`, and the `select` can choose the same
cases. -/
theorem gLoopIter_scheduled (entry : Str) (recursive : Bool) (w : World)
    (g : GState) (src : Source) (h : Scheduled g) :
    ((gLoopIter entry recursive w g src).1.st,
        (gLoopIter entry recursive w g src).2) =
      loopIter entry recursive w g.st src ∧
    gEnabled g src = enabled g.st src := by
  constructor
  · cases hw : g.st.watcher with
    | none =>
      cases src <;> (unfold gLoopIter loopIter; rw [hw])
    | some cur =>
      cases src with
      | errors => rfl
      | events op =>
        rw [gLoopIter_events entry recursive w g cur op hw,
          loopIter_events entry recursive w g.st cur op hw]
        by_cases hop : op &&& (Create ||| Remove ||| Write) > 0
        · simp only [hop, if_true]
          have hk := kill_procChan w { g.st with logs := g.st.logs ++ [.detected] }
          rcases hkk : kill w { g.st with logs := g.st.logs ++ [.detected] } with
            ⟨s2, _ | e⟩
          · rw [hkk] at hk
            have hk1 : s2.procChan = g.st.procChan := hk.1
            have hk2 : s2.alive = g.st.alive := hk.2
            apply gRebuild_scheduled entry recursive w cur { g with st := s2 }
            rcases h with h | ⟨h, ha⟩
            · exact Or.inl (h.trans (by rw [hk1]))
            · exact Or.inr ⟨h, by rw [hk1, hk2]; exact ha⟩
          · rfl
        · simp only [hop, if_false]
      | procChan =>
        rw [loopIter_procChan entry recursive w g.st cur hw]
        unfold gLoopIter
        simp only [hw, gRun, run]
        by_cases hs : w.startFails = true
        · simp [hs, hw]
        · simp [hs, hw]
      | stopChan =>
        rw [loopIter_stopChan entry recursive w g.st cur hw]
        unfold gLoopIter
        rw [hw]
  · cases src with
    | errors => rfl
    | events op => rfl
    | stopChan => rfl
    | procChan =>
      rcases g with ⟨s, gor⟩
      rcases h with h | ⟨h, ha⟩
      · simp only at h
        subst h
        simp [gEnabled, enabled, gChanClosed, chanClosed]
      · simp only at h ha
        subst h
        simp only [gEnabled, enabled, gChanClosed, chanClosed, ha]
        rfl

/-- The first scheduling of the goroutine, before anything else happens to the
process that `run` has just started, puts it in `proc.Wait()` on that process. -/
theorem schedule_scheduled (g : GState) (hg : g.gor = .created)
    (hp : g.st.proc = some g.st.procChan) : Scheduled (schedule g) := by
  rcases g with ⟨s, gor⟩
  simp only at hg hp
  subst hg
  simp [Scheduled, schedule, hp]

/-- In the example world `main` enters `loop` in `gStateExample`. -/
theorem gMain_example :
    gMain (worldExample true true) false entryExample = .ok gStateExample := by
  decide

/-- Claim C8 at a schedule of the program: `main` has started process 0, and a
file change is serviced before the goroutine of `run` has run for the first
time. `kill()`, `build`, `watcher.Close`, `newWatcher` and `run` all succeed.
`kill()` sets `proc` to nil, the goroutine then finds `proc == nil`, its
`proc.Wait()` panics, the deferred function recovers and closes the channel,
and the receive `<-procChan` returns with process 0 killed but not awaited.
When the rebuild iteration completes, process 1 is tracked and two started
processes have not yet exited. -/
theorem rebuild_before_wait_two_alive :
    (gLoop entryExample false gStateExample
      [.service (.events Write) (worldExample true true)]).2 = .next ∧
    (gLoop entryExample false gStateExample
      [.service (.events Write) (worldExample true true)]).1.st.alive = [1, 0] ∧
    (gLoop entryExample false gStateExample
      [.service (.events Write) (worldExample true true)]).1.st.proc = some 1 ∧
    (gLoop entryExample false gStateExample
      [.service (.events Write) (worldExample true true)]).1.st.signalled = [0] := by
  decide

/-- The same file change serviced after the goroutine has run: it is inside
`proc.Wait()` on process 0, the receive returns after the exit of process 0,
and process 1 is the only one running when the iteration completes. -/
theorem rebuild_after_wait_one_alive :
    (gLoop entryExample false gStateExample
      [.schedule, .service (.events Write) (worldExample true true)]).2 = .next ∧
    (gLoop entryExample false gStateExample
      [.schedule, .service (.events Write) (worldExample true true)]).1.st.alive =
      [1] ∧
    (gLoop entryExample false gStateExample
      [.schedule, .service (.events Write) (worldExample true true)]).1.st.proc =
      some 1 := by
  decide

end NBWatcher
